import Mathlib

/-!
Verification of the mini-golf physics core in `src/golf.py`.

Embedding conventions:
* Python floats are modelled as exact rationals (`ℚ`).  All arithmetic the
  source performs with `+ - * /`, comparisons and `min`/`max` is translated
  verbatim over `ℚ`.
* `math.sqrt`, `math.hypot`, `pow(b, dt)` and `math.sin` are not rational-valued,
  so they cannot be Lean functions on `ℚ`.  Wherever the source computes such a
  value and then only *compares* it, the comparison is translated to the
  equivalent comparison of squares (`hypot(vx,vy) < c  ↔  vx²+vy² < c²` for
  `c ≥ 0`).  Wherever the value itself flows into arithmetic
  (`sqrt` in `circle_rect_resolve`, the post-gravity speed in `integrate`,
  `pow(GROUND_FRICTION, dt)` in the friction step, `open_amount` in the gator
  hazard), the exact value is taken as an explicit parameter; every theorem
  that depends on it carries the defining hypothesis
  (`0 ≤ d ∧ d*d = d2`, etc.), and witnesses instantiate it with inputs whose
  square roots are rational.
* Python `int(x)` truncates toward zero: `pyInt`.
* `pygame.Rect` stores integers; `colliderect` is the strict overlap test
  (rectangles that only touch along an edge do not collide), as implemented by
  pygame's `_pg_do_rects_intersect`.
* Fallible Python code is modelled in `Except PyErr`:
  `ZeroDivisionError` for division by zero, and `NameError` for the
  evaluation of the free variable `START_POS` inside `simulate_to_rest`
  (`START_POS` is a local of `main`, so it is unbound at module scope where
  `simulate_to_rest` is defined).
-/

namespace MiniGolf

/-- Python-level runtime errors that the embedded code can raise. -/
inductive PyErr where
  | nameError : PyErr
  | zeroDivision : PyErr
  | valueError : PyErr
deriving DecidableEq

/-- Python `int()` on a float: truncation toward zero. -/
def pyInt (q : ℚ) : ℤ :=
  if 0 ≤ q then ⌊q⌋ else ⌈q⌉

-- ---------- Window / World (src/golf.py lines 7) ----------

def Wconst : ℤ := 1000

def Hconst : ℤ := 600

-- ---------- Physics constants (src/golf.py lines 22-32) ----------

def GRAVITY : ℚ := 2000

def AIR_DRAG : ℚ := 8/10000

def GROUND_FRICTION : ℚ := 82/100

def REST_BOUNCE : ℚ := 1/4

def STOP_SPEED : ℚ := 40

def BALL_R : ℚ := 12

def POWER_SCALE : ℚ := 10

def MAX_POWER : ℚ := 1800

def AIM_MIN_DRAG : ℚ := 6

def HOLE_R : ℚ := 18

/-- The fixed internal step of `simulate_to_rest` (line 255). -/
def SIM_DT : ℚ := 1/300

/-- `MAX_STEPS = int(MAX_SIM_TIME / SIM_DT) = int(8.0 / (1/300.0))`; the float
quotient is exactly 2400.0, so this is 2400 (line 257). -/
def MAX_STEPS : ℕ := 2400

/-- `settled_frames_needed = int(0.15 / SIM_DT)` (line 258).  In binary64
floats `0.15 / (1/300.0) = 44.99999999999999`, so `int` truncates to 44
(not the 45 that exact arithmetic would give). -/
def SETTLED_FRAMES_NEEDED : ℕ := 44

/-- `s` is the exact square root of `q`: the certificate every theorem uses for
the values of `math.sqrt` / `math.hypot` that are passed in as parameters. -/
def IsSqrt (s q : ℚ) : Prop := 0 ≤ s ∧ s * s = q

-- ---------- Ball (src/golf.py lines 123-132) ----------

structure Ball where
  x : ℚ
  y : ℚ
  vx : ℚ
  vy : ℚ
  on_ground : Bool
deriving DecidableEq

/-- `Ball(x, y)` with the dataclass defaults `vx = vy = 0.0`,
`on_ground = False`. -/
def Ball.mkAt (x y : ℚ) : Ball := ⟨x, y, 0, 0, false⟩

/-- Square of `Ball.speed() = math.hypot(vx, vy)`.  The source only ever
compares `speed()` against nonnegative bounds, and
`hypot(vx,vy) ⋈ c ↔ vx*vx+vy*vy ⋈ c*c` for `c ≥ 0`, so every such comparison
is embedded as the comparison of squares. -/
def Ball.speedSq (b : Ball) : ℚ := b.vx * b.vx + b.vy * b.vy

-- ---------- pygame.Rect ----------

/-- `pygame.Rect`: integer position and size. -/
structure Rect where
  x : ℤ
  y : ℤ
  w : ℤ
  h : ℤ
deriving DecidableEq

def Rect.left (r : Rect) : ℤ := r.x

def Rect.right (r : Rect) : ℤ := r.x + r.w

def Rect.top (r : Rect) : ℤ := r.y

def Rect.bottom (r : Rect) : ℤ := r.y + r.h

/-- `pygame.Rect.colliderect`: strict overlap test (rectangles that merely
touch along an edge do NOT collide), exactly pygame's
`_pg_do_rects_intersect`. -/
def colliderect (a b : Rect) : Prop :=
  min a.x (a.x + a.w) < max b.x (b.x + b.w) ∧
  min b.x (b.x + b.w) < max a.x (a.x + a.w) ∧
  min a.y (a.y + a.h) < max b.y (b.y + b.h) ∧
  min b.y (b.y + b.h) < max a.y (a.y + a.h)

instance (a b : Rect) : Decidable (colliderect a b) := by
  unfold colliderect; infer_instance

/-- `Ball.rect()` (line 131): int() truncates each coordinate. -/
def ballRect (b : Ball) : Rect :=
  ⟨pyInt (b.x - BALL_R), pyInt (b.y - BALL_R), 24, 24⟩

-- ---------- Gator (src/golf.py lines 134-155) ----------

structure Gator where
  x : ℤ
  y : ℤ
  w : ℤ
  h : ℤ
  period : ℚ
  phase : ℚ
  open_px : ℤ
deriving DecidableEq

/-- `Gator.mouth_rect(t)` with the opening fraction `amt = open_amount(t)`
supplied as a parameter (`open_amount` is a sine, hence not rational-valued;
the claims quantify over its value). -/
def mouthRect (g : Gator) (amt : ℚ) : Rect :=
  let mh := pyInt ((g.open_px : ℚ) * amt)
  ⟨g.x + pyInt ((g.w : ℚ) * (15/100)), g.y - mh, pyInt ((g.w : ℚ) * (70/100)), mh⟩

/-- The static max-extent hazard rectangle the fast-forward oracle builds from
a gator (lines 262-265): the mouth at full opening `open_px`. -/
def maxMouthRect (g : Gator) : Rect :=
  ⟨g.x + pyInt ((g.w : ℚ) * (15/100)), g.y - g.open_px,
    pyInt ((g.w : ℚ) * (70/100)), g.open_px⟩

-- ---------- circle vs rect (src/golf.py lines 157-181) ----------

/-- The clamp of the ball center onto a rectangle, x coordinate:
`qx = max(rect.left, min(cx, rect.right))`. -/
def clampX (r : Rect) (cx : ℚ) : ℚ := max (r.left : ℚ) (min cx (r.right : ℚ))

/-- The clamp of the ball center onto a rectangle, y coordinate:
`qy = max(rect.top, min(cy, rect.bottom))`. -/
def clampY (r : Rect) (cy : ℚ) : ℚ := max (r.top : ℚ) (min cy (r.bottom : ℚ))

/-- `circle_rect_overlap` (lines 157-161). -/
def circle_rect_overlap (cx cy r : ℚ) (rect : Rect) : Prop :=
  let dx := cx - clampX rect cx
  let dy := cy - clampY rect cy
  dx * dx + dy * dy ≤ r * r

instance (cx cy r : ℚ) (rect : Rect) : Decidable (circle_rect_overlap cx cy r rect) := by
  unfold circle_rect_overlap; infer_instance

/-- `circle_rect_resolve` (lines 163-181).  `sqrtOf d2` stands for
`math.sqrt(d2)`; theorems certify it with `IsSqrt`.  Python float division
raises `ZeroDivisionError` on a zero divisor, which the embedding makes
explicit; the `d2 = 0` fallback sets `d = 1e-6` exactly as the source does. -/
def circle_rect_resolveE (sqrtOf : ℚ → ℚ) (b : Ball) (r : Rect) : Except PyErr Ball :=
  let rad := BALL_R
  let dx := b.x - clampX r b.x
  let dy := b.y - clampY r b.y
  let d2 := dx * dx + dy * dy
  if d2 > rad * rad then .ok b
  else
    let d := if d2 > 0 then sqrtOf d2 else 1/1000000
    if d = 0 then .error .zeroDivision
    else
      let nx := dx / d
      let ny := dy / d
      let overlap := rad - d
      let x1 := b.x + nx * overlap
      let y1 := b.y + ny * overlap
      let vn := b.vx * nx + b.vy * ny
      let vx1 := b.vx - (1 + REST_BOUNCE) * vn * nx
      let vy1 := b.vy - (1 + REST_BOUNCE) * vn * ny
      if ny < -(6/10) then
        .ok ⟨x1, y1, vx1, min vy1 0, true⟩
      else
        .ok ⟨x1, y1, vx1, vy1, b.on_ground⟩

-- ---------- integrate (src/golf.py lines 183-192) ----------

/-- `integrate`.  `sp` stands for `ball.speed()` taken AFTER the gravity
update (the source computes `sp = ball.speed()` on the line following
`ball.vy += GRAVITY*dt`); theorems certify `IsSqrt sp (vx*vx + vy1*vy1)`. -/
def integrate (sp : ℚ) (b : Ball) (dt : ℚ) : Ball :=
  let vy1 := b.vy + GRAVITY * dt
  if sp > 0 then
    let drag := AIR_DRAG * sp * sp
    if drag > 0 then
      let vx2 := b.vx - b.vx / sp * drag * dt
      let vy2 := vy1 - vy1 / sp * drag * dt
      ⟨b.x + vx2 * dt, b.y + vy2 * dt, vx2, vy2, b.on_ground⟩
    else
      ⟨b.x + b.vx * dt, b.y + vy1 * dt, b.vx, vy1, b.on_ground⟩
  else
    ⟨b.x + b.vx * dt, b.y + vy1 * dt, b.vx, vy1, b.on_ground⟩

-- ---------- the shared platform-resolution loop ----------

/-- The platform loop both paths run (lines 431-436 and 271-276): walk the
platform list in order; on each broad-phase hit resolve and recompute the
bounding rect.  `sqrts i` is the `math.sqrt` value used at platform index
`i`. -/
def resolvePlatformsE (sqrts : ℕ → ℚ → ℚ) : List Rect → Ball → Rect → ℕ → Except PyErr Ball
  | [], b, _, _ => .ok b
  | r :: rest, b, br, i =>
    if colliderect r br then
      match circle_rect_resolveE (sqrts i) b r with
      | .error e => .error e
      | .ok b2 => resolvePlatformsE sqrts rest b2 (ballRect b2) (i + 1)
    else
      resolvePlatformsE sqrts rest b br (i + 1)

-- ---------- shared per-step phases ----------

/-- Ground friction (interactive lines 446-449; oracle lines 292-295).
`keep` stands for `pow(GROUND_FRICTION, dt)`, which is irrational for
fractional `dt`; both paths compute it by the same formula from the same
`dt`, so the comparison theorems quantify over it. -/
def frictionPhase (keep : ℚ) (b : Ball) : Ball :=
  if b.on_ground = true ∧ 0 < b.speedSq then
    { b with vx := b.vx * keep, vy := if |b.vy| < 10 then 0 else b.vy }
  else b

/-- Interactive snap-to-rest (lines 450-451): zero the velocity the moment the
ball is on-ground and slower than `STOP_SPEED`. -/
def snapPhase (b : Ball) : Ball :=
  if b.on_ground = true ∧ b.speedSq < STOP_SPEED * STOP_SPEED then
    { b with vx := 0, vy := 0 }
  else b

/-- The three wall clamps (interactive lines 454-459; oracle lines 283-288):
left, right, top, in source order.  The bottom fall (`y > H + 200`) is handled
by each caller because the two paths react differently to it. -/
def boundsPhase (b : Ball) : Ball :=
  let b1 := if b.x < BALL_R then { b with x := BALL_R, vx := -b.vx * REST_BOUNCE } else b
  let b2 := if b1.x > (Wconst : ℚ) - BALL_R then
      { b1 with x := (Wconst : ℚ) - BALL_R, vx := -b1.vx * REST_BOUNCE } else b1
  if b2.y < BALL_R then { b2 with y := BALL_R, vy := -b2.vy * REST_BOUNCE } else b2

/-- The capture condition (interactive lines 464-469; oracle line 299): near
the hole (squared distance within `(hole_r - 2)²`), at the surface
(`y ≥ surf - BALL_R - 2`), and slow (`speed < 320`, compared via squares).
The interactive path passes `surf = hole_surface_y`, the oracle passes
`surf = hole.2`; `main` sets both to the same value. -/
def sinkCond (hole : ℚ × ℚ) (hole_r surf : ℚ) (b : Ball) : Prop :=
  (b.x - hole.1) * (b.x - hole.1) + (b.y - hole.2) * (b.y - hole.2) ≤ (hole_r - 2) * (hole_r - 2)
  ∧ b.y ≥ surf - BALL_R - 2
  ∧ b.speedSq < 320 * 320

instance (hole : ℚ × ℚ) (hole_r surf : ℚ) (b : Ball) : Decidable (sinkCond hole hole_r surf b) := by
  unfold sinkCond; infer_instance

-- ---------- game state and orchestrator helpers (src/golf.py main) ----------

structure GState where
  ball : Ball
  strokes : ℕ
  sunk : Bool
  aiming : Bool
  chomp_timer : ℚ
  course_complete : Bool
deriving DecidableEq

/-- `reset_ball_only` (lines 354-361). -/
def reset_ball_only (penalize : Bool) (start : ℚ × ℚ) (st : GState) : GState :=
  { st with
    strokes := if penalize then st.strokes + 1 else st.strokes,
    chomp_timer := if penalize then 6/5 else st.chomp_timer,
    ball := Ball.mkAt start.1 start.2,
    sunk := false,
    aiming := false }

/-- The gator hazard loop of the interactive path (lines 438-443): walk the
gators, and on the first one whose opening fraction exceeds 0.6 while the
ball overlaps its current mouth, reset with a penalty and stop checking.
Each gator is paired with its `open_amount(tsec)` value. -/
def gatorPhase (start : ℚ × ℚ) : List (Gator × ℚ) → GState → GState
  | [], st => st
  | (g, amt) :: rest, st =>
    if amt > 6/10 ∧ circle_rect_overlap st.ball.x st.ball.y BALL_R (mouthRect g amt) then
      reset_ball_only true start st
    else gatorPhase start rest st

/-- The sink check and its effect (interactive lines 463-472). -/
def sinkApply (hole : ℚ × ℚ) (hole_r surf : ℚ) (st : GState) : GState :=
  if sinkCond hole hole_r surf st.ball then
    { st with
      sunk := true,
      ball := { st.ball with x := hole.1, y := hole.2, vx := 0, vy := 0 } }
  else st

/-- One interactive physics frame: line 389 (`ball.on_ground = False`) plus
the physics block, lines 426-472 (the event-handling block is external input
handling and is modelled by separate entry points such as `applyShot`).
Parameters: `sp` = post-gravity `ball.speed()` inside `integrate`; `sqrts` =
the `math.sqrt` values of the platform loop; `keep` = `pow(GROUND_FRICTION,
dt)`; `gs` pairs each gator with its `open_amount(tsec)`. -/
def interactiveFrame (sp : ℚ) (sqrts : ℕ → ℚ → ℚ) (keep dt : ℚ)
    (plats : List Rect) (gs : List (Gator × ℚ)) (start hole : ℚ × ℚ) (hsy : ℚ)
    (st : GState) : Except PyErr GState :=
  let st0 : GState := { st with ball := { st.ball with on_ground := false } }
  if st0.sunk = true ∨ st0.course_complete = true then .ok st0
  else
    let b1 := integrate sp st0.ball dt
    match resolvePlatformsE sqrts plats b1 (ballRect b1) 0 with
    | .error e => .error e
    | .ok b2 =>
      let st2 := gatorPhase start gs ({ st0 with ball := b2 })
      let b5 := boundsPhase (snapPhase (frictionPhase keep st2.ball))
      let st5 : GState := { st2 with ball := b5 }
      let st6 := if b5.y > (Hconst : ℚ) + 200 then reset_ball_only false start st5 else st5
      .ok (sinkApply hole HOLE_R hsy st6)

-- ---------- fast-forward oracle (src/golf.py lines 245-313) ----------

/-- Outcome of one iteration of the `simulate_to_rest` loop body. -/
inductive StepOut where
  | done : Ball → Bool → StepOut
  | cont : Ball → ℕ → StepOut
deriving DecidableEq

/-- One iteration of the `simulate_to_rest` loop body (lines 267-311),
carrying the `settled_counter`.  The two `return Ball(*START_POS), False`
statements (lines 281 and 290) evaluate the name `START_POS`, which is a
local variable of `main` and has no module-level binding, so at runtime they
raise `NameError`; the embedding returns that error. -/
def simStepE (sp : ℚ) (sqrts : ℕ → ℚ → ℚ) (keep : ℚ)
    (plats hazards : List Rect) (hole : ℚ × ℚ) (hole_r stop_speed : ℚ)
    (b : Ball) (counter : ℕ) : Except PyErr StepOut :=
  let b0 : Ball := { b with on_ground := false }
  let b1 := integrate sp b0 SIM_DT
  match resolvePlatformsE sqrts plats b1 (ballRect b1) 0 with
  | .error e => .error e
  | .ok b2 =>
    if ∃ hz ∈ hazards, circle_rect_overlap b2.x b2.y BALL_R hz then
      .error .nameError
    else
      let b3 := boundsPhase b2
      if b3.y > (Hconst : ℚ) + 200 then
        .error .nameError
      else
        let b4 := frictionPhase keep b3
        if sinkCond hole hole_r hole.2 b4 then
          .ok (.done { b4 with x := hole.1, y := hole.2, vx := 0, vy := 0 } true)
        else if b4.on_ground = true ∧ b4.speedSq < stop_speed * stop_speed then
          if counter + 1 ≥ SETTLED_FRAMES_NEEDED then
            .ok (.done { b4 with vx := 0, vy := 0 } false)
          else .ok (.cont b4 (counter + 1))
        else .ok (.cont b4 0)

/-- The `for _ in range(MAX_STEPS)` loop of `simulate_to_rest`: `fuel`
iterations remain, `k` is the index of the current iteration (used to select
the per-step `sp` and `sqrt` parameter streams), and falling out of the loop
returns `(b, False)` (the `sunk` flag is only set on the break paths, which
are `StepOut.done`). -/
def simRunE (sps : ℕ → ℚ) (sqrtss : ℕ → ℕ → ℚ → ℚ) (keep : ℚ)
    (plats hazards : List Rect) (hole : ℚ × ℚ) (hole_r stop_speed : ℚ) :
    ℕ → ℕ → Ball → ℕ → Except PyErr (Ball × Bool)
  | 0, _, b, _ => .ok (b, false)
  | fuel + 1, k, b, counter =>
    match simStepE (sps k) (sqrtss k) keep plats hazards hole hole_r stop_speed b counter with
    | .error e => .error e
    | .ok (.done b2 s) => .ok (b2, s)
    | .ok (.cont b2 c2) => simRunE sps sqrtss keep plats hazards hole hole_r stop_speed fuel (k + 1) b2 c2

/-- `simulate_to_rest` (lines 245-313): copy the ball, build the static
max-extent hazard rectangles, and run up to `MAX_STEPS` iterations. -/
def simulate_to_rest (sps : ℕ → ℚ) (sqrtss : ℕ → ℕ → ℚ → ℚ) (keep : ℚ)
    (b : Ball) (plats : List Rect) (hole : ℚ × ℚ) (hole_r : ℚ)
    (gators : List Gator) (stop_speed : ℚ) : Except PyErr (Ball × Bool) :=
  simRunE sps sqrtss keep plats (gators.map maxMouthRect) hole hole_r stop_speed MAX_STEPS 0 b 0

-- ---------- aim gesture (src/golf.py lines 415-424) ----------

/-- The MOUSEBUTTONUP shot handler body (lines 416-424), reached when
`aiming ∧ ¬sunk ∧ ¬course_complete`.  `press` is `drag_start`, `release` is
the mouse-up position, and `dist` stands for `math.hypot(dx, dy)`
(certified by `IsSqrt dist (dx*dx+dy*dy)` in the theorems).  The source
computes the direction via `ang = atan2(dy, dx); (-cos ang, -sin ang)`,
whose exact value is `(-dx/dist, -dy/dist)` whenever `dist > 0`; the branch
using it is only reached when `power > AIM_MIN_DRAG`, which forces
`dist > 0`. -/
def applyShot (dist : ℚ) (press release : ℚ × ℚ) (st : GState) : GState :=
  let dx := release.1 - press.1
  let dy := release.2 - press.2
  let power := min MAX_POWER (dist * POWER_SCALE)
  if power > AIM_MIN_DRAG then
    { st with
      ball := { st.ball with vx := -(dx / dist) * power, vy := -(dy / dist) * power },
      strokes := st.strokes + 1,
      aiming := false }
  else
    { st with aiming := false }

-- ---------- surface_y_at_x (src/golf.py lines 239-243) ----------

/-- Python `min` over a list of ints: `ValueError` on the empty list. -/
def listMinE : List ℤ → Except PyErr ℤ
  | [] => .error .valueError
  | a :: rest => .ok (rest.foldl min a)

/-- The list comprehension of `surface_y_at_x`:
`[py for (px, py, pw, ph) in platforms if px <= x <= px + pw]`. -/
def spanningTops (plats : List Rect) (x : ℚ) : List ℤ :=
  plats.filterMap
    (fun p => if (p.x : ℚ) ≤ x ∧ x ≤ (p.x : ℚ) + (p.w : ℚ) then some p.y else none)

/-- `surface_y_at_x` (lines 239-243): minimum top-y over the platforms whose
horizontal span contains `x`, else minimum top-y over all platforms. -/
def surface_y_at_x (plats : List Rect) (x : ℚ) : Except PyErr ℤ :=
  match spanningTops plats x with
  | [] => listMinE (plats.map fun p => p.y)
  | a :: rest => .ok (rest.foldl min a)

-- ---------- level data used by concrete scenarios ----------

/-- The Warm-up level platform list (lines 39-45, with `H = 600`,
`W = 1000`). -/
def warmupPlatforms : List Rect :=
  [⟨0, 540, 1000, 60⟩, ⟨260, 420, 160, 20⟩, ⟨540, 340, 140, 20⟩,
   ⟨760, 480, 120, 20⟩, ⟨420, 480, 40, 100⟩]

/-- Warm-up start pose `(80, H - 90)` (line 47). -/
def warmupStart : ℚ × ℚ := (80, 510)

/-- The Swamp Gap gator (line 61): x=420, y=H-80=520, w=160, h=40,
period=2.2, phase=0, open_px=26. -/
def swampGator : Gator := ⟨420, 520, 160, 40, 11/5, 0, 26⟩

/-- A concrete interactive game state used by the scenario conjuncts: ball at
(500, 519), sitting inside the Swamp Gap gator mouth region. -/
def sampleState : GState := ⟨⟨500, 519, 30, 0, false⟩, 2, false, false, 0, false⟩

/-- A concrete state for the capture scenarios: ball resting on the hole
surface at Warm-up hole position (center `BALL_R` above the surface),
already flagged sunk. -/
def c3State : GState := ⟨⟨820, 468, 0, 0, true⟩, 1, true, false, 0, false⟩

/-- An interactive state about to fall out of the world: ball at
(500, 799.99), in free fall, 3 strokes played. -/
def fallState : GState := ⟨⟨500, 79999/100, 0, 0, false⟩, 3, false, false, 0, false⟩

/-- A single flat ground platform (the Warm-up ground), used by the
fast-forward settling analysis. -/
def flatLevel : List Rect := [⟨0, 540, 1000, 60⟩]

/-- The `(ball, settled_counter)` successor of one oracle iteration, defined
whenever the iteration neither breaks nor raises (and the input otherwise). -/
def simContStep (sp : ℚ) (sqrts : ℕ → ℚ → ℚ) (keep : ℚ) (plats hazards : List Rect)
    (hole : ℚ × ℚ) (hole_r stop_speed : ℚ) (b : Ball) (c : ℕ) : Ball × ℕ :=
  match simStepE sp sqrts keep plats hazards hole hole_r stop_speed b c with
  | .ok (.cont b2 c2) => (b2, c2)
  | _ => (b, c)

/-- `n`-fold iteration of `simContStep` starting at stream index `k`. -/
def simIter (sps : ℕ → ℚ) (sqrtss : ℕ → ℕ → ℚ → ℚ) (keep : ℚ)
    (plats hazards : List Rect) (hole : ℚ × ℚ) (hole_r stop_speed : ℚ) :
    ℕ → ℕ → Ball × ℕ → Ball × ℕ
  | 0, _, p => p
  | n + 1, k, p =>
    simIter sps sqrtss keep plats hazards hole hole_r stop_speed n (k + 1)
      (simContStep (sps k) (sqrtss k) keep plats hazards hole hole_r stop_speed p.1 p.2)

/-- Every one of the next `n` oracle iterations continues the loop (returns
`.cont`, i.e. neither breaks via capture or settling nor raises). -/
def AllCont (sps : ℕ → ℚ) (sqrtss : ℕ → ℕ → ℚ → ℚ) (keep : ℚ)
    (plats hazards : List Rect) (hole : ℚ × ℚ) (hole_r stop_speed : ℚ) :
    ℕ → ℕ → Ball → ℕ → Prop
  | 0, _, _, _ => True
  | n + 1, k, b, c =>
    simStepE (sps k) (sqrtss k) keep plats hazards hole hole_r stop_speed b c
      = .ok (.cont
          (simContStep (sps k) (sqrtss k) keep plats hazards hole hole_r stop_speed b c).1
          (simContStep (sps k) (sqrtss k) keep plats hazards hole hole_r stop_speed b c).2) ∧
    AllCont sps sqrtss keep plats hazards hole hole_r stop_speed n (k + 1)
      (simContStep (sps k) (sqrtss k) keep plats hazards hole hole_r stop_speed b c).1
      (simContStep (sps k) (sqrtss k) keep plats hazards hole hole_r stop_speed b c).2

/-- `n` interactive physics frames on a hazard-free level, each with the
oracle's fixed step `SIM_DT` and per-step parameter streams. -/
def interactiveRun (sps : ℕ → ℚ) (sqrtss : ℕ → ℕ → ℚ → ℚ) (keep : ℚ)
    (plats : List Rect) (start hole : ℚ × ℚ) (hsy : ℚ) :
    ℕ → ℕ → GState → Except PyErr GState
  | 0, _, st => .ok st
  | n + 1, k, st =>
    match interactiveFrame (sps k) (sqrtss k) keep SIM_DT plats [] start hole hsy st with
    | .error e => .error e
    | .ok st2 => interactiveRun sps sqrtss keep plats start hole hsy n (k + 1) st2

/-- A step is "free" when, after integration and platform resolution, the
ball is airborne (not ground-classified), inside all world bounds, and not
capturable: exactly the steps on which the two per-step pipelines coincide. -/
def FreeStep (sp : ℚ) (sqrts : ℕ → ℚ → ℚ) (plats : List Rect) (hole : ℚ × ℚ)
    (b : Ball) : Prop :=
  ∃ b2, resolvePlatformsE sqrts plats
      (integrate sp { b with on_ground := false } SIM_DT)
      (ballRect (integrate sp { b with on_ground := false } SIM_DT)) 0 = .ok b2 ∧
    b2.on_ground = false ∧
    ¬ b2.x < BALL_R ∧ ¬ b2.x > (Wconst : ℚ) - BALL_R ∧ ¬ b2.y < BALL_R ∧
    ¬ b2.y > (Hconst : ℚ) + 200 ∧
    ¬ sinkCond hole HOLE_R hole.2 b2

/-- The next `n` steps of the oracle trajectory are all free. -/
def FreeRun (sps : ℕ → ℚ) (sqrtss : ℕ → ℕ → ℚ → ℚ) (keep : ℚ)
    (plats : List Rect) (hole : ℚ × ℚ) : ℕ → ℕ → Ball → ℕ → Prop
  | 0, _, _, _ => True
  | n + 1, k, b, c =>
    FreeStep (sps k) (sqrtss k) plats hole b ∧
    FreeRun sps sqrtss keep plats hole n (k + 1)
      (simContStep (sps k) (sqrtss k) keep plats [] hole HOLE_R STOP_SPEED b c).1
      (simContStep (sps k) (sqrtss k) keep plats [] hole HOLE_R STOP_SPEED b c).2

/-- Invariant of the settling analysis on `flatLevel`: the ball sits above
x = 500 with no horizontal motion, strictly above the 1-px re-contact
threshold (y < 529; y grows downward and the platform top is 540), with the
discrete mechanical energy `vy² - 2*GRAVITY*y` bounded. -/
def C8Inv (b : Ball) : Prop :=
  b.x = 500 ∧ b.vx = 0 ∧ b.y < 529 ∧ b.vy * b.vy - 4000 * b.y ≤ -2111600

/-- `C8Inv` extended with the settled-counter bookkeeping: the counter is at
most 1, and a positive counter means the previous iteration ended in ground
contact, which pins the ball to y = 528 with non-positive (upward) vy. -/
def C8InvC (b : Ball) (c : ℕ) : Prop :=
  C8Inv b ∧ c ≤ 1 ∧ (1 ≤ c → b.y = 528 ∧ b.vy ≤ 0)

/-- The square-root certificates the settling analysis needs along a run:
at each step, `sps k` is the post-gravity speed of the current ball and
`sqrtss k 0` returns the exact root `540 - y1` at the squared contact
distance (the only point where the step can call `math.sqrt`). -/
def C8Certs (sps : ℕ → ℚ) (sqrtss : ℕ → ℕ → ℚ → ℚ) (keep : ℚ) :
    ℕ → ℕ → Ball → ℕ → Prop
  | 0, _, _, _ => True
  | n + 1, k, b, c =>
    IsSqrt (sps k) (b.vx * b.vx
      + (b.vy + GRAVITY * SIM_DT) * (b.vy + GRAVITY * SIM_DT)) ∧
    sqrtss k 0 (((integrate (sps k) { b with on_ground := false } SIM_DT).y - 540)
        * ((integrate (sps k) { b with on_ground := false } SIM_DT).y - 540))
      = 540 - (integrate (sps k) { b with on_ground := false } SIM_DT).y ∧
    C8Certs sps sqrtss keep n (k + 1)
      (simContStep (sps k) (sqrtss k) keep flatLevel [] (-1000, -1000) HOLE_R STOP_SPEED b c).1
      (simContStep (sps k) (sqrtss k) keep flatLevel [] (-1000, -1000) HOLE_R STOP_SPEED b c).2

/-- The post-gravity speed of the first fall step of a ball starting with
zero velocity: `|0 + GRAVITY*SIM_DT| = 20/3`; used by concrete witnesses. -/
def constSps : ℕ → ℚ := fun _ => 20/3

/-- Square-root stream for the C8 witness (only index 0 is consulted; the
first step from rest is airborne and its contact distance is `540 - y1`
with `y1 = 2673112498/5062500`). -/
def c8sqrtss : ℕ → ℕ → ℚ → ℚ := fun _ _ _ => 60637502/5062500

-- ---------- claim-facing spec predicates ----------

/-- The capture predicate exactly as claim C3 words it: squared distance to
the hole center within `(HOLE_R - 2)²`, speed below 320 (compared via
squares), and the ball center at or below the supporting-surface height
(`y ≥ hsy`, y growing downward).  This is the spec-side definition to be
compared with `sinkCond`, the code-side one. -/
def captureSpecLiteral (hole : ℚ × ℚ) (hsy : ℚ) (b : Ball) : Prop :=
  (b.x - hole.1) * (b.x - hole.1) + (b.y - hole.2) * (b.y - hole.2) ≤ (HOLE_R - 2) * (HOLE_R - 2)
  ∧ b.speedSq < 320 * 320
  ∧ b.y ≥ hsy

/-- The capture predicate as C3 must be amended: the vertical condition the
code enforces is `y ≥ hsy - (BALL_R + 2)`, i.e. the ball center may be up to
`BALL_R + 2 = 14` pixels above the supporting surface (so that a ball resting
on the surface, whose center sits `BALL_R` above it, can be captured). -/
def captureSpecAmended (hole : ℚ × ℚ) (hsy : ℚ) (b : Ball) : Prop :=
  (b.x - hole.1) * (b.x - hole.1) + (b.y - hole.2) * (b.y - hole.2) ≤ (HOLE_R - 2) * (HOLE_R - 2)
  ∧ b.speedSq < 320 * 320
  ∧ b.y ≥ hsy - (BALL_R + 2)

-- ===================== theorems =====================

/-- C10: the bottom-boundary fall in the interactive loop calls
`reset_ball_only()` with the default `penalize=False`: the ball is replaced by
a fresh `Ball(*START_POS)` with zero velocity and the aiming flag is cleared,
while the stroke counter, the chomp timer, and the rest of the game state
(level data aside) are unchanged — no penalty stroke; by contrast
`penalize=True` (the gator chomp) adds exactly one stroke. -/
theorem c10_fall_reset_is_penalty_free (start : ℚ × ℚ) (st : GState) :
    (reset_ball_only false start st).strokes = st.strokes ∧
    (reset_ball_only false start st).chomp_timer = st.chomp_timer ∧
    (reset_ball_only false start st).course_complete = st.course_complete ∧
    (reset_ball_only false start st).ball = Ball.mkAt start.1 start.2 ∧
    (reset_ball_only false start st).ball.vx = 0 ∧
    (reset_ball_only false start st).ball.vy = 0 ∧
    (reset_ball_only false start st).aiming = false ∧
    (reset_ball_only true start st).strokes = st.strokes + 1 := by
  refine ⟨rfl, rfl, rfl, rfl, rfl, rfl, rfl, rfl⟩

/-- C4: when the ball center coincides with the clamped nearest point of an
overlapping rectangle (`d2 = 0`), `circle_rect_resolve` substitutes the fixed
small epsilon `1e-6` for the distance, so no division by zero occurs and the
call completes normally (returning the ball unchanged, since the resulting
normal is the zero vector). -/
theorem c4_degenerate_contact_never_fails (sqrtOf : ℚ → ℚ) (b : Ball) (r : Rect)
    (hx : clampX r b.x = b.x) (hy : clampY r b.y = b.y) :
    circle_rect_resolveE sqrtOf b r = .ok b := by
  unfold circle_rect_resolveE
  rw [hx, hy]
  norm_num [BALL_R]

/-- Witness for C4: ball centered at (5,5) strictly inside the rectangle
(0,0,10,10); the clamp point equals the center and the resolver returns
without error. -/
theorem c4_witness :
    clampX ⟨0, 0, 10, 10⟩ (5 : ℚ) = 5 ∧ clampY ⟨0, 0, 10, 10⟩ (5 : ℚ) = 5 ∧
    circle_rect_resolveE (fun _ => 0) ⟨5, 5, 3, -4, false⟩ ⟨0, 0, 10, 10⟩ =
      .ok ⟨5, 5, 3, -4, false⟩ := by
  have hx : clampX ⟨0, 0, 10, 10⟩ (5 : ℚ) = 5 := by
    norm_num [clampX, Rect.left, Rect.right, min_def, max_def]
  have hy : clampY ⟨0, 0, 10, 10⟩ (5 : ℚ) = 5 := by
    norm_num [clampY, Rect.top, Rect.bottom, min_def, max_def]
  exact ⟨hx, hy, c4_degenerate_contact_never_fails (fun _ => 0) ⟨5, 5, 3, -4, false⟩ _ hx hy⟩

/-- C9 counterexample: ball at (50,-11) just above the rectangle (0,0,100,100),
moving straight away from it (vy = -100, so the outward normal component is
vn = 100 > 0).  The claim says the resolution reverses that component to
`-REST_BOUNCE*vn = -25`, i.e. the resolved vy would be 25; but because the
contact is classified as ground (ny = -1 < -0.6), the `vy = min(vy, 0)`
clamp zeroes it: the resolved ball is (50,-12) with velocity (0,0), whose
normal component 0 differs from `-REST_BOUNCE*vn`. -/
theorem c9_counterexample :
    IsSqrt 11 121 ∧
    (0 * (0:ℚ) + (-100) * (-1) > 0) ∧
    circle_rect_resolveE (fun _ => 11) ⟨50, -11, 0, -100, false⟩ ⟨0, 0, 100, 100⟩ =
      .ok ⟨50, -12, 0, 0, true⟩ ∧
    (0 : ℚ) * 0 + 0 * (-1) ≠ -REST_BOUNCE * (0 * 0 + (-100) * (-1)) := by
  refine ⟨⟨by norm_num, by norm_num⟩, by norm_num, ?_, by norm_num [REST_BOUNCE]⟩
  norm_num [circle_rect_resolveE, clampX, clampY, Rect.left, Rect.right, Rect.top,
    Rect.bottom, min_def, max_def, BALL_R, REST_BOUNCE]

/-- C9 as amended: `circle_rect_resolve` applies the restitution reflection
unconditionally — for every overlapping, non-degenerate contact whose normal
is not ground-classified (`ny ≥ -0.6`), the normal velocity component `vn`
(in particular an outward `vn > 0`) becomes exactly `-REST_BOUNCE * vn`;
outward motion is never left unchanged.  (For ground-classified contacts the
reflected component is additionally clamped by `vy = min(vy, 0)`, which is
what the counterexample exhibits.) -/
theorem c9_reflection_unconditional (sqrtOf : ℚ → ℚ) (b : Ball) (r : Rect) (d : ℚ)
    (hov : (b.x - clampX r b.x) * (b.x - clampX r b.x)
         + (b.y - clampY r b.y) * (b.y - clampY r b.y) ≤ BALL_R * BALL_R)
    (hpos : 0 < (b.x - clampX r b.x) * (b.x - clampX r b.x)
          + (b.y - clampY r b.y) * (b.y - clampY r b.y))
    (hsq : IsSqrt d ((b.x - clampX r b.x) * (b.x - clampX r b.x)
                   + (b.y - clampY r b.y) * (b.y - clampY r b.y)))
    (hs : sqrtOf ((b.x - clampX r b.x) * (b.x - clampX r b.x)
                + (b.y - clampY r b.y) * (b.y - clampY r b.y)) = d)
    (hny : ¬ (b.y - clampY r b.y) / d < -(6/10)) :
    ∃ b2, circle_rect_resolveE sqrtOf b r = .ok b2 ∧
      b2.vx * ((b.x - clampX r b.x) / d) + b2.vy * ((b.y - clampY r b.y) / d) =
        -REST_BOUNCE * (b.vx * ((b.x - clampX r b.x) / d)
                      + b.vy * ((b.y - clampY r b.y) / d)) := by
  obtain ⟨hd0, hdd⟩ := hsq
  have hdne : d ≠ 0 := by
    intro h
    rw [h, zero_mul] at hdd
    exact absurd hdd.symm (ne_of_gt hpos)
  have h1 : ¬ ((b.x - clampX r b.x) * (b.x - clampX r b.x)
      + (b.y - clampY r b.y) * (b.y - clampY r b.y) > BALL_R * BALL_R) :=
    not_lt.mpr hov
  have hres : circle_rect_resolveE sqrtOf b r =
      .ok ⟨b.x + (b.x - clampX r b.x) / d * (BALL_R - d),
           b.y + (b.y - clampY r b.y) / d * (BALL_R - d),
           b.vx - (1 + REST_BOUNCE) * (b.vx * ((b.x - clampX r b.x) / d)
                + b.vy * ((b.y - clampY r b.y) / d)) * ((b.x - clampX r b.x) / d),
           b.vy - (1 + REST_BOUNCE) * (b.vx * ((b.x - clampX r b.x) / d)
                + b.vy * ((b.y - clampY r b.y) / d)) * ((b.y - clampY r b.y) / d),
           b.on_ground⟩ := by
    simp only [circle_rect_resolveE]
    rw [if_neg h1, if_pos hpos, hs, if_neg hdne, if_neg hny]
  refine ⟨_, hres, ?_⟩
  have hn : ((b.x - clampX r b.x) / d) * ((b.x - clampX r b.x) / d)
      + ((b.y - clampY r b.y) / d) * ((b.y - clampY r b.y) / d) = 1 := by
    rw [div_mul_div_comm, div_mul_div_comm, div_add_div_same, ← hdd,
      div_self (mul_ne_zero hdne hdne)]
  linear_combination (-((1 + REST_BOUNCE) * (b.vx * ((b.x - clampX r b.x) / d)
      + b.vy * ((b.y - clampY r b.y) / d)))) * hn

/-- Witness for C9's amended theorem: ball at (105,50) overlapping the right
edge of the rectangle (0,0,100,100) while moving straight away from it
(vx = 50, vn = 50 > 0); the side normal (1,0) is not ground-classified, and
the resolved normal component is exactly `-REST_BOUNCE * 50 = -12.5`. -/
theorem c9_witness :
    ∃ b2, circle_rect_resolveE (fun _ => 5) ⟨105, 50, 50, 0, false⟩ ⟨0, 0, 100, 100⟩ = .ok b2 ∧
      b2.vx * ((105 - clampX ⟨0, 0, 100, 100⟩ 105) / 5)
        + b2.vy * (((50:ℚ) - clampY ⟨0, 0, 100, 100⟩ 50) / 5) =
        -REST_BOUNCE * ((50:ℚ) * ((105 - clampX ⟨0, 0, 100, 100⟩ 105) / 5)
          + (0:ℚ) * (((50:ℚ) - clampY ⟨0, 0, 100, 100⟩ 50) / 5)) := by
  exact c9_reflection_unconditional (fun _ => 5) ⟨105, 50, 50, 0, false⟩ ⟨0, 0, 100, 100⟩ 5
    (by norm_num [clampX, clampY, Rect.left, Rect.right, Rect.top, Rect.bottom,
      min_def, max_def, BALL_R])
    (by norm_num [clampX, clampY, Rect.left, Rect.right, Rect.top, Rect.bottom,
      min_def, max_def])
    (by norm_num [clampX, clampY, Rect.left, Rect.right, Rect.top, Rect.bottom,
      min_def, max_def, IsSqrt])
    (by norm_num [clampX, clampY, Rect.left, Rect.right, Rect.top, Rect.bottom,
      min_def, max_def])
    (by norm_num [clampX, clampY, Rect.left, Rect.right, Rect.top, Rect.bottom,
      min_def, max_def])

/-- C6: the aim gesture.  Threshold: the shot is applied iff
`min(MAX_POWER, dist*POWER_SCALE) > AIM_MIN_DRAG`, which is equivalent to the
drag distance exceeding the fixed distance threshold 3/5.  Applied shots get
velocity `power/dist * (press - release)` — direction `normalize(press -
release)`, i.e. opposite the drag — with squared magnitude exactly `power²`
where `power = min(MAX_POWER, dist*POWER_SCALE)`, and one stroke is added.
Sub-threshold drags only clear the aiming flag: velocity and stroke count are
untouched (a no-op, not a zero-power shot). -/
theorem c6_aim_gesture_to_velocity (dist : ℚ) (press release : ℚ × ℚ) (st : GState)
    (hd : IsSqrt dist ((release.1 - press.1) * (release.1 - press.1)
        + (release.2 - press.2) * (release.2 - press.2))) :
    (min MAX_POWER (dist * POWER_SCALE) > AIM_MIN_DRAG ↔ dist > 3/5) ∧
    (min MAX_POWER (dist * POWER_SCALE) > AIM_MIN_DRAG →
      (applyShot dist press release st).ball.vx
          = (press.1 - release.1) / dist * min MAX_POWER (dist * POWER_SCALE) ∧
      (applyShot dist press release st).ball.vy
          = (press.2 - release.2) / dist * min MAX_POWER (dist * POWER_SCALE) ∧
      (applyShot dist press release st).ball.speedSq
          = min MAX_POWER (dist * POWER_SCALE) * min MAX_POWER (dist * POWER_SCALE) ∧
      (applyShot dist press release st).strokes = st.strokes + 1 ∧
      (applyShot dist press release st).aiming = false) ∧
    (¬ min MAX_POWER (dist * POWER_SCALE) > AIM_MIN_DRAG →
      applyShot dist press release st = { st with aiming := false }) := by
  obtain ⟨hd0, hdd⟩ := hd
  have hiff : min MAX_POWER (dist * POWER_SCALE) > AIM_MIN_DRAG ↔ dist > 3/5 := by
    rw [gt_iff_lt, lt_min_iff]
    constructor
    · rintro ⟨-, h2⟩
      rw [AIM_MIN_DRAG, POWER_SCALE] at h2
      linarith
    · intro h
      refine ⟨by norm_num [AIM_MIN_DRAG, MAX_POWER], ?_⟩
      rw [AIM_MIN_DRAG, POWER_SCALE]
      linarith
  refine ⟨hiff, ?_, ?_⟩
  · intro h
    have hdist : dist > 3/5 := hiff.mp h
    have hdne : dist ≠ 0 := by positivity
    have happ : applyShot dist press release st =
        { st with
          ball := { st.ball with
            vx := -((release.1 - press.1) / dist) * min MAX_POWER (dist * POWER_SCALE),
            vy := -((release.2 - press.2) / dist) * min MAX_POWER (dist * POWER_SCALE) },
          strokes := st.strokes + 1,
          aiming := false } := by
      simp only [applyShot]
      rw [if_pos h]
    rw [happ]
    have hn : (release.1 - press.1) / dist * ((release.1 - press.1) / dist)
        + (release.2 - press.2) / dist * ((release.2 - press.2) / dist) = 1 := by
      rw [div_mul_div_comm, div_mul_div_comm, div_add_div_same, ← hdd,
        div_self (mul_ne_zero hdne hdne)]
    refine ⟨by ring, by ring, ?_, rfl, rfl⟩
    show (-((release.1 - press.1) / dist) * min MAX_POWER (dist * POWER_SCALE))
        * (-((release.1 - press.1) / dist) * min MAX_POWER (dist * POWER_SCALE))
      + (-((release.2 - press.2) / dist) * min MAX_POWER (dist * POWER_SCALE))
        * (-((release.2 - press.2) / dist) * min MAX_POWER (dist * POWER_SCALE))
      = min MAX_POWER (dist * POWER_SCALE) * min MAX_POWER (dist * POWER_SCALE)
    linear_combination (min MAX_POWER (dist * POWER_SCALE)
      * min MAX_POWER (dist * POWER_SCALE)) * hn
  · intro h
    simp only [applyShot]
    rw [if_neg h]

/-- Witness for C6: drag from press (100,100) to release (103,104), distance
5; the shot fires with velocity (-30,-40) — down-left of the release-to-press
direction — and one stroke is added. -/
theorem c6_witness :
    IsSqrt 5 (((103:ℚ) - 100) * ((103:ℚ) - 100) + ((104:ℚ) - 100) * ((104:ℚ) - 100)) ∧
    (applyShot 5 (100, 100) (103, 104) sampleState).ball.vx = -30 ∧
    (applyShot 5 (100, 100) (103, 104) sampleState).ball.vy = -40 ∧
    (applyShot 5 (100, 100) (103, 104) sampleState).strokes = sampleState.strokes + 1 := by
  have hd : IsSqrt 5 (((103:ℚ) - 100) * ((103:ℚ) - 100)
      + ((104:ℚ) - 100) * ((104:ℚ) - 100)) := by
    constructor <;> norm_num
  obtain ⟨hiff, happly, -⟩ := c6_aim_gesture_to_velocity 5 (100, 100) (103, 104) sampleState hd
  have hp : min MAX_POWER ((5:ℚ) * POWER_SCALE) > AIM_MIN_DRAG := by
    norm_num [MAX_POWER, POWER_SCALE, AIM_MIN_DRAG, min_def]
  obtain ⟨hvx, hvy, -, hstrokes, -⟩ := happly hp
  refine ⟨hd, ?_, ?_, hstrokes⟩
  · rw [hvx]; norm_num [MAX_POWER, POWER_SCALE, min_def]
  · rw [hvy]; norm_num [MAX_POWER, POWER_SCALE, min_def]

/-- Helper: a left fold of `min` lands on an element of `a :: l`. -/
theorem foldlMin_mem (l : List ℤ) : ∀ a : ℤ, l.foldl min a ∈ a :: l := by
  induction l with
  | nil => intro a; simp
  | cons b t ih =>
    intro a
    simp only [List.foldl_cons]
    rcases List.mem_cons.mp (ih (min a b)) with h1 | h1
    · rw [h1]
      rcases min_choice a b with hm | hm <;> rw [hm] <;> simp
    · simp [h1]

/-- Helper: a left fold of `min` is a lower bound of `a :: l`. -/
theorem foldlMin_le (l : List ℤ) : ∀ a : ℤ, l.foldl min a ≤ a ∧ ∀ x ∈ l, l.foldl min a ≤ x := by
  induction l with
  | nil => intro a; simp
  | cons b t ih =>
    intro a
    simp only [List.foldl_cons]
    obtain ⟨h1, h2⟩ := ih (min a b)
    refine ⟨le_trans h1 (min_le_left a b), ?_⟩
    intro x hx
    rcases List.mem_cons.mp hx with rfl | hx2
    · exact le_trans h1 (min_le_right a x)
    · exact h2 x hx2

/-- C5: `surface_y_at_x` returns the minimum top-y among the platforms whose
horizontal span contains the anchor `x`; when no platform spans the anchor it
falls back to the minimum top-y over the whole (nonempty) level without
raising; and at the Warm-up hole anchor `x = 820` it resolves to 480 (the
top of the platform (760,480,120,20)), not the ground top 540. -/
theorem c5_hole_surface_y (plats : List Rect) (x : ℚ) (hne : plats ≠ []) :
    (∀ a rest, spanningTops plats x = a :: rest →
      ∃ v, surface_y_at_x plats x = .ok v ∧ v ∈ spanningTops plats x ∧
        ∀ t ∈ spanningTops plats x, v ≤ t) ∧
    (spanningTops plats x = [] →
      ∃ v, surface_y_at_x plats x = .ok v ∧ v ∈ plats.map (fun p => p.y) ∧
        ∀ t ∈ plats.map (fun p => p.y), v ≤ t) ∧
    surface_y_at_x warmupPlatforms 820 = .ok 480 := by
  refine ⟨?_, ?_, ?_⟩
  · intro a rest hspan
    refine ⟨rest.foldl min a, ?_, ?_, ?_⟩
    · simp only [surface_y_at_x, hspan]
    · rw [hspan]; exact foldlMin_mem rest a
    · rw [hspan]
      intro t ht
      obtain ⟨h1, h2⟩ := foldlMin_le rest a
      rcases List.mem_cons.mp ht with rfl | ht2
      · exact h1
      · exact h2 t ht2
  · intro hspan
    obtain ⟨p, ps, rfl⟩ := List.exists_cons_of_ne_nil hne
    refine ⟨(ps.map (fun q => q.y)).foldl min p.y, ?_, ?_, ?_⟩
    · simp only [surface_y_at_x, hspan, listMinE, List.map_cons]
    · rw [List.map_cons]
      exact foldlMin_mem (ps.map (fun q => q.y)) p.y
    · intro t ht
      rw [List.map_cons] at ht
      obtain ⟨h1, h2⟩ := foldlMin_le (ps.map (fun q => q.y)) p.y
      rcases List.mem_cons.mp ht with rfl | ht2
      · exact h1
      · exact h2 t ht2
  · norm_num [surface_y_at_x, spanningTops, warmupPlatforms, List.filterMap_cons, min_def]

/-- Witness for C5 at the Warm-up level and the hole anchor 820: the spanning
tops are [540, 480] and the minimum, 480, is returned. -/
theorem c5_witness :
    warmupPlatforms ≠ [] ∧ spanningTops warmupPlatforms 820 = [540, 480] ∧
    ∃ v, surface_y_at_x warmupPlatforms 820 = .ok v ∧ v ∈ spanningTops warmupPlatforms 820 ∧
      ∀ t ∈ spanningTops warmupPlatforms 820, v ≤ t := by
  have hne : warmupPlatforms ≠ [] := by simp [warmupPlatforms]
  have hspan : spanningTops warmupPlatforms 820 = [540, 480] := by
    norm_num [spanningTops, warmupPlatforms, List.filterMap_cons]
  exact ⟨hne, hspan, (c5_hole_surface_y warmupPlatforms 820 hne).1 540 [480] hspan⟩

/-- C7: the interactive hazard event fires exactly when the opening fraction
exceeds 0.6 AND the ball overlaps the current mouth rectangle; its effect is
`reset_ball_only(penalize=True)` — ball back to the start pose plus exactly
one penalty stroke.  Scenario: the ball at (500,519) overlaps the Swamp Gap
gator mouth both at fraction 0.1 and 0.9, but only the 0.9 case fires. -/
theorem c7_hazard_fires_iff_open_and_overlap (g : Gator) (amt : ℚ) (start : ℚ × ℚ)
    (st : GState) :
    (amt > 6/10 ∧ circle_rect_overlap st.ball.x st.ball.y BALL_R (mouthRect g amt) →
      gatorPhase start [(g, amt)] st = reset_ball_only true start st ∧
      (gatorPhase start [(g, amt)] st).strokes = st.strokes + 1 ∧
      (gatorPhase start [(g, amt)] st).ball = Ball.mkAt start.1 start.2) ∧
    (¬ (amt > 6/10 ∧ circle_rect_overlap st.ball.x st.ball.y BALL_R (mouthRect g amt)) →
      gatorPhase start [(g, amt)] st = st) ∧
    (circle_rect_overlap 500 519 BALL_R (mouthRect swampGator (1/10)) ∧
      gatorPhase warmupStart [(swampGator, 1/10)] sampleState = sampleState) ∧
    (circle_rect_overlap 500 519 BALL_R (mouthRect swampGator (9/10)) ∧
      (gatorPhase warmupStart [(swampGator, 9/10)] sampleState).strokes
        = sampleState.strokes + 1 ∧
      (gatorPhase warmupStart [(swampGator, 9/10)] sampleState).ball = Ball.mkAt 80 510) := by
  have hm9 : mouthRect swampGator (9/10) = ⟨444, 497, 112, 23⟩ := by
    norm_num [mouthRect, swampGator, pyInt]
  have hm1 : mouthRect swampGator (1/10) = ⟨444, 518, 112, 2⟩ := by
    norm_num [mouthRect, swampGator, pyInt]
  have hov9 : circle_rect_overlap 500 519 BALL_R (mouthRect swampGator (9/10)) := by
    rw [hm9]
    norm_num [circle_rect_overlap, clampX, clampY, Rect.left, Rect.right, Rect.top,
      Rect.bottom, min_def, max_def, BALL_R]
  have hov1 : circle_rect_overlap 500 519 BALL_R (mouthRect swampGator (1/10)) := by
    rw [hm1]
    norm_num [circle_rect_overlap, clampX, clampY, Rect.left, Rect.right, Rect.top,
      Rect.bottom, min_def, max_def, BALL_R]
  refine ⟨?_, ?_, ?_, ?_⟩
  · intro h
    have : gatorPhase start [(g, amt)] st = reset_ball_only true start st := by
      simp only [gatorPhase]
      rw [if_pos h]
    refine ⟨this, ?_, ?_⟩ <;> rw [this] <;> rfl
  · intro h
    simp only [gatorPhase]
    rw [if_neg h]
  · refine ⟨hov1, ?_⟩
    simp only [gatorPhase]
    rw [if_neg]
    rintro ⟨h1, -⟩
    norm_num at h1
  · refine ⟨hov9, ?_⟩
    have : gatorPhase warmupStart [(swampGator, 9/10)] sampleState
        = reset_ball_only true warmupStart sampleState := by
      simp only [gatorPhase]
      rw [if_pos ⟨by norm_num, hov9⟩]
    rw [this]
    exact ⟨rfl, rfl⟩

/-- Witness for C7: the general parts applied at the Swamp Gap gator with
fraction 0.9, the sample state, and the Warm-up start. -/
theorem c7_witness :
    ((9:ℚ)/10 > 6/10 ∧
      circle_rect_overlap sampleState.ball.x sampleState.ball.y BALL_R
        (mouthRect swampGator (9/10))) ∧
    gatorPhase warmupStart [(swampGator, 9/10)] sampleState
      = reset_ball_only true warmupStart sampleState := by
  obtain ⟨hfire, -, -, hov9, -⟩ :=
    c7_hazard_fires_iff_open_and_overlap swampGator (9/10) warmupStart sampleState
  have hyp : (9:ℚ)/10 > 6/10 ∧
      circle_rect_overlap sampleState.ball.x sampleState.ball.y BALL_R
        (mouthRect swampGator (9/10)) := ⟨by norm_num, hov9⟩
  exact ⟨hyp, (hfire hyp).1⟩

/-- C3 counterexample: the ball resting on the hole surface at (820, 468)
(center `BALL_R = 12` above the surface 480) with zero velocity IS captured by
the code (`sinkCond` holds, as `468 ≥ 480 - 12 - 2`), but the claim's literal
vertical condition "at or below the supporting-surface height" (`y ≥ 480`)
fails — so the claimed three-condition characterization is false. -/
theorem c3_counterexample :
    sinkCond (820, 480) HOLE_R 480 ⟨820, 468, 0, 0, true⟩ ∧
    ¬ captureSpecLiteral (820, 480) 480 ⟨820, 468, 0, 0, true⟩ := by
  constructor
  · refine ⟨?_, ?_, ?_⟩ <;> norm_num [Ball.speedSq, HOLE_R, BALL_R]
  · rintro ⟨-, -, h3⟩
    norm_num at h3

/-- C3 as amended: the ball is captured exactly when the squared distance to
the hole center is within `(HOLE_R-2)²`, the squared speed is below `320²`,
and the ball center is at or below the supporting-surface height MINUS
`BALL_R + 2` (i.e. at most 14 px above the surface); on capture the velocity
is zeroed and the position snapped exactly to the hole center with the sunk
flag set; and once sunk the interactive frame skips physics entirely, leaving
position and velocity unchanged (terminal for the shot). -/
theorem c3_capture_characterized (hole : ℚ × ℚ) (hsy : ℚ) (b : Ball) (st : GState)
    (sp : ℚ) (sqrts : ℕ → ℚ → ℚ) (keep dt : ℚ) (plats : List Rect)
    (gs : List (Gator × ℚ)) (start hole2 : ℚ × ℚ) (hsy2 : ℚ) :
    (sinkCond hole HOLE_R hsy b ↔ captureSpecAmended hole hsy b) ∧
    (sinkCond hole HOLE_R hsy st.ball →
      (sinkApply hole HOLE_R hsy st).ball.x = hole.1 ∧
      (sinkApply hole HOLE_R hsy st).ball.y = hole.2 ∧
      (sinkApply hole HOLE_R hsy st).ball.vx = 0 ∧
      (sinkApply hole HOLE_R hsy st).ball.vy = 0 ∧
      (sinkApply hole HOLE_R hsy st).sunk = true) ∧
    (st.sunk = true →
      ∃ st2, interactiveFrame sp sqrts keep dt plats gs start hole2 hsy2 st = .ok st2 ∧
        st2.ball.x = st.ball.x ∧ st2.ball.y = st.ball.y ∧
        st2.ball.vx = st.ball.vx ∧ st2.ball.vy = st.ball.vy ∧ st2.sunk = true) := by
  refine ⟨?_, ?_, ?_⟩
  · simp only [sinkCond, captureSpecAmended]
    constructor
    · rintro ⟨h1, h2, h3⟩
      exact ⟨h1, h3, by linarith⟩
    · rintro ⟨h1, h2, h3⟩
      exact ⟨h1, by linarith, h2⟩
  · intro h
    have : sinkApply hole HOLE_R hsy st =
        { st with
          sunk := true,
          ball := { st.ball with x := hole.1, y := hole.2, vx := 0, vy := 0 } } := by
      simp only [sinkApply]
      rw [if_pos h]
    rw [this]
    exact ⟨rfl, rfl, rfl, rfl, rfl⟩
  · intro h
    have hcond : ({ st with ball := { st.ball with on_ground := false } } : GState).sunk = true
        ∨ ({ st with ball := { st.ball with on_ground := false } } : GState).course_complete
          = true := Or.inl h
    refine ⟨{ st with ball := { st.ball with on_ground := false } }, ?_, rfl, rfl, rfl, rfl, h⟩
    simp only [interactiveFrame]
    rw [if_pos hcond]

/-- Witness for C3's amended theorem: the resting ball at the Warm-up hole,
and a sunk state passed through one interactive frame. -/
theorem c3_witness :
    captureSpecAmended (820, 480) 480 ⟨820, 468, 0, 0, true⟩ ∧
    (sinkApply (820, 480) HOLE_R 480 c3State).sunk = true ∧
    ∃ st2, interactiveFrame 0 (fun _ _ => 0) 0 (1/300) warmupPlatforms [] warmupStart
        (820, 480) 480 c3State = .ok st2 ∧ st2.ball.vx = 0 := by
  obtain ⟨hiff, hsink, hterm⟩ :=
    c3_capture_characterized (820, 480) 480 ⟨820, 468, 0, 0, true⟩ c3State
      0 (fun _ _ => 0) 0 (1/300) warmupPlatforms [] warmupStart (820, 480) 480
  have hc : sinkCond (820, 480) HOLE_R 480 ⟨820, 468, 0, 0, true⟩ := by
    refine ⟨?_, ?_, ?_⟩ <;> norm_num [Ball.speedSq, HOLE_R, BALL_R]
  have hcs : sinkCond (820, 480) HOLE_R 480 c3State.ball := hc
  obtain ⟨-, -, -, -, hsunk⟩ := hsink hcs
  obtain ⟨st2, heq, -, -, hvx, -, -⟩ := hterm rfl
  exact ⟨hiff.mp hc, hsunk, st2, heq, by rw [hvx]; rfl⟩

/-- Helper: a step that raises propagates out of the oracle loop. -/
theorem simRunE_error_step (sps : ℕ → ℚ) (sqrtss : ℕ → ℕ → ℚ → ℚ) (keep : ℚ)
    (plats hazards : List Rect) (hole : ℚ × ℚ) (hole_r stop_speed : ℚ)
    (fuel k : ℕ) (b : Ball) (c : ℕ) (e : PyErr)
    (h : simStepE (sps k) (sqrtss k) keep plats hazards hole hole_r stop_speed b c
      = .error e) :
    simRunE sps sqrtss keep plats hazards hole hole_r stop_speed (fuel + 1) k b c
      = .error e := by
  simp only [simRunE, h]

/-- Helper: a step that breaks the loop yields the returned pair. -/
theorem simRunE_done_step (sps : ℕ → ℚ) (sqrtss : ℕ → ℕ → ℚ → ℚ) (keep : ℚ)
    (plats hazards : List Rect) (hole : ℚ × ℚ) (hole_r stop_speed : ℚ)
    (fuel k : ℕ) (b b2 : Ball) (c : ℕ) (s : Bool)
    (h : simStepE (sps k) (sqrtss k) keep plats hazards hole hole_r stop_speed b c
      = .ok (.done b2 s)) :
    simRunE sps sqrtss keep plats hazards hole hole_r stop_speed (fuel + 1) k b c
      = .ok (b2, s) := by
  simp only [simRunE, h]

/-- Helper: a continuing step recurses. -/
theorem simRunE_cont_step (sps : ℕ → ℚ) (sqrtss : ℕ → ℕ → ℚ → ℚ) (keep : ℚ)
    (plats hazards : List Rect) (hole : ℚ × ℚ) (hole_r stop_speed : ℚ)
    (fuel k : ℕ) (b b2 : Ball) (c c2 : ℕ)
    (h : simStepE (sps k) (sqrtss k) keep plats hazards hole hole_r stop_speed b c
      = .ok (.cont b2 c2)) :
    simRunE sps sqrtss keep plats hazards hole hole_r stop_speed (fuel + 1) k b c
      = simRunE sps sqrtss keep plats hazards hole hole_r stop_speed fuel (k + 1) b2 c2 := by
  simp only [simRunE, h]

/-- Helper: one `integrate` call of the out-of-world fall scenario. -/
theorem fall_integrate_eval :
    integrate (20/3) ⟨500, 79999/100, 0, 0, false⟩ SIM_DT
      = ⟨500, 4050061873/5062500, 0, 112498/16875, false⟩ := by
  norm_num [integrate, GRAVITY, AIR_DRAG, SIM_DT]

/-- Helper: the bounding rect of the fallen ball. -/
theorem fall_rect_eval :
    ballRect ⟨500, 4050061873/5062500, 0, 112498/16875, false⟩ = ⟨488, 788, 24, 24⟩ := by
  norm_num [ballRect, pyInt, BALL_R]

/-- Helper: no Warm-up platform collides with the fallen ball. -/
theorem fall_resolve_eval :
    resolvePlatformsE (fun _ _ => 0) warmupPlatforms
      ⟨500, 4050061873/5062500, 0, 112498/16875, false⟩ ⟨488, 788, 24, 24⟩ 0
      = .ok ⟨500, 4050061873/5062500, 0, 112498/16875, false⟩ := by
  norm_num [resolvePlatformsE, warmupPlatforms, colliderect, Rect.left, Rect.right,
    Rect.top, Rect.bottom, min_def, max_def]

/-- Helper: the oracle iteration on the fall scenario reaches the
`b.y > H + 200` branch and evaluates `Ball(*START_POS)`, raising NameError. -/
theorem fall_step_eval :
    simStepE (20/3) (fun _ _ => 0) (1/2) warmupPlatforms [] (820, 480) HOLE_R STOP_SPEED
      ⟨500, 79999/100, 0, 0, false⟩ 0 = .error .nameError := by
  norm_num [simStepE, fall_integrate_eval, fall_rect_eval, fall_resolve_eval,
    boundsPhase, Hconst, Wconst, BALL_R]

/-- Helper: the whole `simulate_to_rest` call on the fall scenario raises. -/
theorem fall_oracle_run_eval :
    simulate_to_rest constSps (fun _ _ _ => 0) (1/2) ⟨500, 79999/100, 0, 0, false⟩
      warmupPlatforms (820, 480) HOLE_R [] STOP_SPEED = .error .nameError := by
  simp only [simulate_to_rest, List.map_nil, MAX_STEPS]
  rw [show (2400:ℕ) = 2399 + 1 from rfl]
  exact simRunE_error_step _ _ _ _ _ _ _ _ 2399 0 _ 0 _ fall_step_eval

/-- Helper: the interactive frame at the same state treats the fall as a
gameplay reset: ball back to the Warm-up start, strokes untouched. -/
theorem fall_frame_eval :
    interactiveFrame (20/3) (fun _ _ => 0) (1/2) SIM_DT warmupPlatforms [] warmupStart
      (820, 480) 480 fallState = .ok ⟨Ball.mkAt 80 510, 3, false, false, 0, false⟩ := by
  norm_num [interactiveFrame, fallState, fall_integrate_eval, fall_rect_eval,
    fall_resolve_eval, gatorPhase, frictionPhase, snapPhase, boundsPhase, sinkApply,
    sinkCond, reset_ball_only, Ball.mkAt, Ball.speedSq, warmupStart, Hconst, Wconst,
    BALL_R, HOLE_R]

/-- C2 (code_bug): a ball falling past `H + 200`.  The interactive path
treats it as a gameplay event (`reset_ball_only()`, ball back to the start
pose, no exception), but `simulate_to_rest`'s corresponding branch evaluates
`Ball(*START_POS)` where `START_POS` is a local of `main` with no module
binding, so the oracle raises NameError instead of returning the start pose —
contradicting the claim that neither path raises.  The first conjunct
certifies the `math.hypot` value used by the step. -/
theorem c2_oracle_out_of_world_raises :
    IsSqrt (20/3) ((0:ℚ) * 0 + (0 + GRAVITY * SIM_DT) * (0 + GRAVITY * SIM_DT)) ∧
    interactiveFrame (20/3) (fun _ _ => 0) (1/2) SIM_DT warmupPlatforms [] warmupStart
      (820, 480) 480 fallState = .ok ⟨Ball.mkAt 80 510, 3, false, false, 0, false⟩ ∧
    simulate_to_rest constSps (fun _ _ _ => 0) (1/2) ⟨500, 79999/100, 0, 0, false⟩
      warmupPlatforms (820, 480) HOLE_R [] STOP_SPEED = .error .nameError := by
  refine ⟨⟨by norm_num, by norm_num [GRAVITY, SIM_DT]⟩, fall_frame_eval, fall_oracle_run_eval⟩

/-- C1 counterexample: starting from the very same ball state (500, 799.99)
at rest in mid-air, with the same step size `SIM_DT = 1/300`, one interactive
step produces a well-defined state (ball reset to the Warm-up start pose
(80,510), strokes unchanged), while the Fast-Forward Oracle run raises
NameError and produces no final state at all: the two paths do not share
identical per-step logic and do not produce the same final
position/velocity/capture flag. -/
theorem c1_counterexample :
    interactiveFrame (20/3) (fun _ _ => 0) (1/2) SIM_DT warmupPlatforms [] warmupStart
      (820, 480) 480 fallState = .ok ⟨Ball.mkAt 80 510, 3, false, false, 0, false⟩ ∧
    simulate_to_rest constSps (fun _ _ _ => 0) (1/2) fallState.ball warmupPlatforms
      (820, 480) HOLE_R [] STOP_SPEED = .error .nameError ∧
    IsSqrt (20/3) (fallState.ball.vx * fallState.ball.vx
      + (fallState.ball.vy + GRAVITY * SIM_DT) * (fallState.ball.vy + GRAVITY * SIM_DT)) := by
  refine ⟨fall_frame_eval, fall_oracle_run_eval, ?_⟩
  constructor <;> norm_num [fallState, GRAVITY, SIM_DT]

/-- Helper: on a free step (airborne after resolution, in bounds, no
capture) the interactive frame and the oracle iteration perform the identical
pipeline — integrate, resolve platforms — and nothing else fires, so both end
in the same ball, the frame leaving the rest of the game state untouched and
the oracle continuing with a reset settled counter. -/
theorem freeStep_agree (sp : ℚ) (sqrts : ℕ → ℚ → ℚ) (keep : ℚ) (plats : List Rect)
    (start hole : ℚ × ℚ) (st : GState) (c : ℕ) (b2 : Ball)
    (hsunk : st.sunk = false) (hcc : st.course_complete = false)
    (hres : resolvePlatformsE sqrts plats
        (integrate sp { st.ball with on_ground := false } SIM_DT)
        (ballRect (integrate sp { st.ball with on_ground := false } SIM_DT)) 0 = .ok b2)
    (hog : b2.on_ground = false)
    (hx1 : ¬ b2.x < BALL_R) (hx2 : ¬ b2.x > (Wconst : ℚ) - BALL_R)
    (hy1 : ¬ b2.y < BALL_R) (hy2 : ¬ b2.y > (Hconst : ℚ) + 200)
    (hsink : ¬ sinkCond hole HOLE_R hole.2 b2) :
    interactiveFrame sp sqrts keep SIM_DT plats [] start hole hole.2 st
      = .ok { st with ball := b2 } ∧
    simStepE sp sqrts keep plats [] hole HOLE_R STOP_SPEED st.ball c = .ok (.cont b2 0) := by
  constructor
  · simp only [interactiveFrame, gatorPhase, frictionPhase, snapPhase, boundsPhase,
      sinkApply]
    simp [hres, hsunk, hcc, hog, hx1, hx2, hy1, hy2, hsink]
  · simp only [simStepE, boundsPhase, frictionPhase]
    simp [hres, hog, hx1, hx2, hy1, hy2, hsink]

/-- C1 as amended: both paths do share the `integrate` + platform-resolution
+ wall-clamp + capture pipeline, and on every run whose steps are free of the
features where the two designs intentionally differ — hazards, ground
contact (friction, snap-to-rest vs. sustained-settling), and out-of-world
falls — N interactive frames at the oracle step size `SIM_DT` produce exactly
the oracle's internal state after N iterations: the same ball, with strokes
and flags untouched and every oracle iteration continuing (no break, no
exception).  Full-trajectory equivalence is false (see the counterexample);
this is the agreeing core. -/
theorem c1_free_paths_agree (sps : ℕ → ℚ) (sqrtss : ℕ → ℕ → ℚ → ℚ) (keep : ℚ)
    (plats : List Rect) (start hole : ℚ × ℚ) :
    ∀ (n k : ℕ) (st : GState) (c : ℕ), st.sunk = false → st.course_complete = false →
      FreeRun sps sqrtss keep plats hole n k st.ball c →
      AllCont sps sqrtss keep plats [] hole HOLE_R STOP_SPEED n k st.ball c ∧
      interactiveRun sps sqrtss keep plats start hole hole.2 n k st
        = .ok { st with ball :=
            (simIter sps sqrtss keep plats [] hole HOLE_R STOP_SPEED n k (st.ball, c)).1 } := by
  intro n
  induction n with
  | zero =>
    intro k st c hsunk hcc _
    exact ⟨trivial, rfl⟩
  | succ n ih =>
    intro k st c hsunk hcc hfree
    obtain ⟨⟨b2, hres, hog, hx1, hx2, hy1, hy2, hsink⟩, htail⟩ := hfree
    obtain ⟨hframe, hsim⟩ := freeStep_agree (sps k) (sqrtss k) keep plats start hole st c
      b2 hsunk hcc hres hog hx1 hx2 hy1 hy2 hsink
    have hcont : simContStep (sps k) (sqrtss k) keep plats [] hole HOLE_R STOP_SPEED
        st.ball c = (b2, 0) := by
      simp [simContStep, hsim]
    rw [hcont] at htail
    have ih2 := ih (k + 1) { st with ball := b2 } 0 hsunk hcc htail
    constructor
    · refine ⟨?_, ?_⟩
      · rw [hcont]
        exact hsim
      · rw [hcont]
        exact ih2.1
    · calc interactiveRun sps sqrtss keep plats start hole hole.2 (n + 1) k st
          = interactiveRun sps sqrtss keep plats start hole hole.2 n (k + 1)
            { st with ball := b2 } := by
            simp only [interactiveRun, hframe]
        _ = .ok { st with ball :=
            (simIter sps sqrtss keep plats [] hole HOLE_R STOP_SPEED (n + 1) k
              (st.ball, c)).1 } := by
            rw [ih2.2]
            simp only [simIter]
            rw [hcont]

/-- Witness for C1's amended theorem: one free mid-air step at (500,100) on
the Warm-up level; both paths yield the same state. -/
theorem c1_witness :
    FreeRun constSps (fun _ _ _ => 0) (1/2) warmupPlatforms (820, 480) 1 0
      ⟨500, 100, 0, 0, false⟩ 0 ∧
    AllCont constSps (fun _ _ _ => 0) (1/2) warmupPlatforms [] (820, 480) HOLE_R STOP_SPEED
      1 0 ⟨500, 100, 0, 0, false⟩ 0 ∧
    interactiveRun constSps (fun _ _ _ => 0) (1/2) warmupPlatforms warmupStart (820, 480)
      (820, 480).2 1 0 ⟨⟨500, 100, 0, 0, false⟩, 0, false, false, 0, false⟩
      = .ok { (⟨⟨500, 100, 0, 0, false⟩, 0, false, false, 0, false⟩ : GState) with
          ball := (simIter constSps (fun _ _ _ => 0) (1/2) warmupPlatforms [] (820, 480)
            HOLE_R STOP_SPEED 1 0 (⟨500, 100, 0, 0, false⟩, 0)).1 } := by
  have hint : integrate (20/3) ⟨500, 100, 0, 0, false⟩ SIM_DT
      = ⟨500, 506362498/5062500, 0, 112498/16875, false⟩ := by
    norm_num [integrate, GRAVITY, AIR_DRAG, SIM_DT]
  have hrect : ballRect ⟨500, 506362498/5062500, 0, 112498/16875, false⟩
      = ⟨488, 88, 24, 24⟩ := by
    norm_num [ballRect, pyInt, BALL_R]
  have hres : resolvePlatformsE (fun _ _ => 0) warmupPlatforms
      ⟨500, 506362498/5062500, 0, 112498/16875, false⟩ ⟨488, 88, 24, 24⟩ 0
      = .ok ⟨500, 506362498/5062500, 0, 112498/16875, false⟩ := by
    norm_num [resolvePlatformsE, warmupPlatforms, colliderect, Rect.left, Rect.right,
      Rect.top, Rect.bottom, min_def, max_def]
  have hfree : FreeRun constSps (fun _ _ _ => 0) (1/2) warmupPlatforms (820, 480) 1 0
      ⟨500, 100, 0, 0, false⟩ 0 := by
    rw [show (1:ℕ) = 0 + 1 from rfl]
    refine ⟨⟨⟨500, 506362498/5062500, 0, 112498/16875, false⟩, ?_, rfl, ?_, ?_, ?_, ?_, ?_⟩,
      trivial⟩
    · rw [show integrate (constSps 0) { Ball.mk 500 100 0 0 false with on_ground := false }
          SIM_DT = integrate (20/3) ⟨500, 100, 0, 0, false⟩ SIM_DT from rfl, hint, hrect]
      exact hres
    · norm_num [BALL_R]
    · norm_num [Wconst, BALL_R]
    · norm_num [BALL_R]
    · norm_num [Hconst]
    · norm_num [sinkCond, Ball.speedSq, HOLE_R, BALL_R]
  obtain ⟨hall, hrun⟩ := c1_free_paths_agree constSps (fun _ _ _ => 0) (1/2)
    warmupPlatforms warmupStart (820, 480) 1 0
    ⟨⟨500, 100, 0, 0, false⟩, 0, false, false, 0, false⟩ 0 rfl rfl hfree
  exact ⟨hfree, hall, hrun⟩

/-- Helper: for a purely vertical ball state, `integrate` leaves x and vx
alone and multiplies the post-gravity vy by the drag factor `1 - sp/375000`
(this closed form equals `vy1 - vy1/sp * (AIR_DRAG*sp*sp) * SIM_DT` when
`sp > 0` and is the no-drag value when `sp = 0`). -/
theorem c8_integrate_eval (sp y vy : ℚ) (hsp0 : 0 ≤ sp) :
    integrate sp ⟨500, y, 0, vy, false⟩ SIM_DT
      = ⟨500, y + (vy + GRAVITY * SIM_DT) * (1 - sp/375000) * SIM_DT, 0,
         (vy + GRAVITY * SIM_DT) * (1 - sp/375000), false⟩ := by
  rcases eq_or_lt_of_le hsp0 with h0 | hpos
  · simp only [integrate]
    rw [if_neg (by rw [← h0]; exact lt_irrefl 0)]
    rw [← h0]
    simp only [Ball.mk.injEq]
    refine ⟨by ring, by ring, by ring, by ring, trivial⟩
  · have hdrag : (0:ℚ) < AIR_DRAG * sp * sp := by
      have h : (0:ℚ) < AIR_DRAG := by rw [AIR_DRAG]; norm_num
      positivity
    have hne : sp ≠ 0 := ne_of_gt hpos
    simp only [integrate]
    rw [if_pos hpos, if_pos hdrag]
    simp only [Ball.mk.injEq]
    refine ⟨?_, ?_, ?_, ?_, trivial⟩
    · rw [zero_div]; ring
    · rw [AIR_DRAG, SIM_DT]; field_simp; ring
    · rw [zero_div]; ring
    · rw [AIR_DRAG, SIM_DT]; field_simp; ring

/-- Helper: over the flat ground platform, the int-truncated broad phase sees
the ball exactly when its center has sunk at least one full pixel into the
surface: `colliderect ↔ 529 ≤ y`. -/
theorem c8_collide_iff (b1 : Ball) (hx : b1.x = 500) (hylo : 527 ≤ b1.y)
    (hyhi : b1.y < 540) :
    colliderect ⟨0, 540, 1000, 60⟩ (ballRect b1) ↔ 529 ≤ b1.y := by
  have hpx : pyInt (b1.x - BALL_R) = 488 := by
    rw [hx, BALL_R]
    norm_num [pyInt]
  have hpy : pyInt (b1.y - BALL_R) = ⌊b1.y - 12⌋ := by
    rw [BALL_R, pyInt, if_pos (by linarith)]
  have hball : ballRect b1 = ⟨488, ⌊b1.y - 12⌋, 24, 24⟩ := by
    simp only [ballRect, hpx, hpy]
  rw [hball]
  simp only [colliderect]
  have e1 : min (0:ℤ) (0 + 1000) = 0 := by norm_num
  have e2 : max (0:ℤ) (0 + 1000) = 1000 := by norm_num
  have e3 : min (488:ℤ) (488 + 24) = 488 := by norm_num
  have e4 : max (488:ℤ) (488 + 24) = 512 := by norm_num
  have e5 : min (540:ℤ) (540 + 60) = 540 := by norm_num
  have e6 : max (540:ℤ) (540 + 60) = 600 := by norm_num
  have e7 : min (⌊b1.y - 12⌋) (⌊b1.y - 12⌋ + 24) = ⌊b1.y - 12⌋ :=
    min_eq_left (by linarith)
  have e8 : max (⌊b1.y - 12⌋) (⌊b1.y - 12⌋ + 24) = ⌊b1.y - 12⌋ + 24 :=
    max_eq_right (by linarith)
  rw [e1, e2, e3, e4, e5, e6, e7, e8]
  constructor
  · rintro ⟨-, -, h3, -⟩
    have : (517:ℤ) ≤ ⌊b1.y - 12⌋ := by linarith
    have := (Int.le_floor).mp this
    push_cast at this
    linarith
  · intro h
    refine ⟨by norm_num, by norm_num, ?_, ?_⟩
    · have : (517:ℤ) ≤ ⌊b1.y - 12⌋ := Int.le_floor.mpr (by push_cast; linarith)
      linarith
    · have : ⌊b1.y - 12⌋ < (600:ℤ) := Int.floor_lt.mpr (by push_cast; linarith)
      linarith

/-- Helper: resolving the one-pixel ground penetration: the normal is exactly
(0,-1), the ball is pushed back to y = 528, vx stays 0, the vertical velocity
is reflected to `-vy/4` and clamped by `min(·, 0)`, and the contact is
classified as ground. -/
theorem c8_resolve_contact (sqrts : ℕ → ℚ → ℚ) (b1 : Ball)
    (hx : b1.x = 500) (hvx : b1.vx = 0)
    (hylo : 529 ≤ b1.y) (hyhi : b1.y ≤ 530)
    (hsq : sqrts 0 ((b1.y - 540) * (b1.y - 540)) = 540 - b1.y) :
    circle_rect_resolveE (sqrts 0) b1 ⟨0, 540, 1000, 60⟩
      = .ok ⟨500, 528, 0, min (-(b1.vy/4)) 0, true⟩ := by
  obtain ⟨bx, byy, bvx, bvy, bog⟩ := b1
  simp only at hx hvx hylo hyhi hsq
  subst hx hvx
  have hcx : clampX ⟨0, 540, 1000, 60⟩ (500:ℚ) = 500 := by
    norm_num [clampX, Rect.left, Rect.right, min_def, max_def]
  have hcy : clampY ⟨0, 540, 1000, 60⟩ byy = 540 := by
    simp only [clampY, Rect.top, Rect.bottom]
    push_cast
    rw [min_eq_left (by linarith : byy ≤ (600:ℚ)),
      max_eq_left (by linarith : byy ≤ (540:ℚ))]
  have hdne : (540:ℚ) - byy ≠ 0 := by intro h; linarith
  simp only [circle_rect_resolveE, hcx, hcy, sub_self, BALL_R, zero_mul, zero_add,
    mul_zero, add_zero, zero_div, zero_sub]
  rw [if_neg (by nlinarith : ¬ (byy - 540) * (byy - 540) > 12 * 12)]
  rw [if_pos (by nlinarith : (byy - 540) * (byy - 540) > 0)]
  rw [hsq]
  rw [if_neg hdne]
  have hny : (byy - 540) / (540 - byy) = -1 := by
    rw [div_eq_iff hdne]; ring
  rw [hny]
  rw [if_pos (by norm_num : (-1:ℚ) < -(6/10))]
  simp only [Except.ok.injEq, Ball.mk.injEq]
  have harg : bvy - (1 + REST_BOUNCE) * (bvy * (-1:ℚ)) * (-1) = -(bvy/4) := by
    rw [REST_BOUNCE]; ring
  refine ⟨by ring, by ring, by ring, by rw [harg], trivial⟩

/-- Helper: one integration step does not increase the discrete mechanical
energy `vy² - 2*GRAVITY*y`: with `V` the post-drag vertical velocity,
`V² - (40/3)V ≤ vy²` (the `-(40/3)V` term accounts for the position update
`y + V*SIM_DT`); quadratic drag only dissipates. -/
theorem c8_energy_step (bvy sp : ℚ) (hsp0 : 0 ≤ sp)
    (hsp2 : sp * sp = (bvy + 20/3) * (bvy + 20/3)) (hsple : sp ≤ 74)
    (hwles : bvy + 20/3 ≤ sp) :
    ((bvy + 20/3) * (1 - sp/375000)) * ((bvy + 20/3) * (1 - sp/375000))
      - (40/3) * ((bvy + 20/3) * (1 - sp/375000)) ≤ bvy * bvy := by
  have hws : (bvy + 20/3) * sp ≤ sp * sp :=
    mul_le_mul_of_nonneg_right hwles hsp0
  have hs3 : 0 ≤ sp * sp * sp := by positivity
  have hs4 : sp * sp * (sp * sp) ≤ 5476 * (sp * sp) := by nlinarith
  nlinarith [hsp2, hws, hs3, hs4, hsp0, hsple]

/-- Helper: the wall clamps do nothing to a ball inside all three bounds. -/
theorem boundsPhase_id (b : Ball) (h1 : ¬ b.x < BALL_R)
    (h2 : ¬ b.x > (Wconst : ℚ) - BALL_R) (h3 : ¬ b.y < BALL_R) :
    boundsPhase b = b := by
  simp only [boundsPhase]
  rw [if_neg h1, if_neg h2, if_neg h3]

set_option maxHeartbeats 2000000 in
/-- Helper: one oracle iteration from a `C8InvC` state on the flat level is
always a `.cont` that preserves `C8InvC`: the ball either stays airborne
(broad phase misses until it has sunk a full pixel) with the counter reset to
0, or makes a ground contact that snaps it back to y = 528 with the counter
at 1 — so the settled counter can never pass 1. -/
theorem c8_step (sp keep : ℚ) (sqrts : ℕ → ℚ → ℚ) (b : Ball) (c : ℕ)
    (hInv : C8InvC b c)
    (hsp : IsSqrt sp (b.vx * b.vx + (b.vy + GRAVITY * SIM_DT) * (b.vy + GRAVITY * SIM_DT)))
    (hsq : sqrts 0 (((integrate sp { b with on_ground := false } SIM_DT).y - 540)
        * ((integrate sp { b with on_ground := false } SIM_DT).y - 540))
      = 540 - (integrate sp { b with on_ground := false } SIM_DT).y) :
    ∃ b2 c2,
      simStepE sp sqrts keep flatLevel [] (-1000, -1000) HOLE_R STOP_SPEED b c
        = .ok (.cont b2 c2) ∧ C8InvC b2 c2 := by
  obtain ⟨⟨hx, hvx, hy529, hE⟩, hcle, hcimp⟩ := hInv
  obtain ⟨hsp0, hsp2⟩ := hsp
  obtain ⟨bx, byy, bvx, bvy, bog⟩ := b
  simp only at hx hvx hy529 hE hsp2 hcimp
  dsimp only at hsq
  subst hx hvx
  have hgs : GRAVITY * SIM_DT = 20/3 := by rw [GRAVITY, SIM_DT]; norm_num
  have hsp2w : sp * sp = (bvy + 20/3) * (bvy + 20/3) := by
    rw [hgs] at hsp2
    linear_combination hsp2
  have hbyy_lo : 5279/10 ≤ byy := by nlinarith [mul_self_nonneg bvy]
  have hvsq : bvy * bvy ≤ 4400 := by nlinarith
  have hv67u : bvy ≤ 67 := by nlinarith [sq_nonneg (bvy - 67)]
  have hv67l : -67 ≤ bvy := by nlinarith [sq_nonneg (bvy + 67)]
  have hwle : bvy + 20/3 ≤ 74 := by linarith
  have hwge : -(74:ℚ) ≤ bvy + 20/3 := by linarith
  have hsple : sp ≤ 74 := by
    nlinarith [sq_nonneg (sp - 74), mul_nonneg (by linarith : (0:ℚ) ≤ 74 - (bvy + 20/3))
      (by linarith : (0:ℚ) ≤ 74 + (bvy + 20/3))]
  have hwles : bvy + 20/3 ≤ sp := by
    rcases mul_eq_zero.mp (by linear_combination hsp2w :
        (sp - (bvy + 20/3)) * (sp + (bvy + 20/3)) = 0) with h | h
    · linarith
    · linarith
  have hκpos : 0 < 1 - sp/375000 := by linarith
  have hκle : 1 - sp/375000 ≤ 1 := by linarith
  have hVle : (bvy + 20/3) * (1 - sp/375000) ≤ 74 := by nlinarith
  have hVge : -(74:ℚ) ≤ (bvy + 20/3) * (1 - sp/375000) := by nlinarith
  have hEn := c8_energy_step bvy sp hsp0 hsp2w hsple hwles
  have hint := c8_integrate_eval sp byy bvy hsp0
  rw [hgs] at hint
  rw [hint] at hsq
  dsimp only at hsq
  have hsd : (SIM_DT : ℚ) = 1/300 := by rw [SIM_DT]
  by_cases hcon : 529 ≤ byy + (bvy + 20/3) * (1 - sp/375000) * SIM_DT
  · -- contact: the ball has sunk a full pixel; resolve snaps it to 528
    have hVpos : 0 < (bvy + 20/3) * (1 - sp/375000) := by
      by_contra h
      push_neg at h
      rw [hsd] at hcon
      linarith
    have hy1hi : byy + (bvy + 20/3) * (1 - sp/375000) * SIM_DT ≤ 530 := by
      rw [hsd]; linarith [hVle]
    have hc0 : c = 0 := by
      by_contra h
      obtain ⟨hy528, hvneg⟩ := hcimp (Nat.one_le_iff_ne_zero.mpr h)
      rw [hy528, hsd] at hcon
      linarith [hVle]
    have hcol : colliderect ⟨0, 540, 1000, 60⟩
        (ballRect ⟨500, byy + (bvy + 20/3) * (1 - sp/375000) * SIM_DT, 0,
          (bvy + 20/3) * (1 - sp/375000), false⟩) :=
      (c8_collide_iff _ rfl (by dsimp only; rw [hsd]; linarith [hVge])
        (by dsimp only; rw [hsd]; linarith [hVle])).mpr (by dsimp only; exact hcon)
    have hresolve := c8_resolve_contact sqrts
      ⟨500, byy + (bvy + 20/3) * (1 - sp/375000) * SIM_DT, 0,
        (bvy + 20/3) * (1 - sp/375000), false⟩
      rfl rfl (by dsimp only; exact hcon) (by dsimp only; exact hy1hi)
      (by dsimp only; exact hsq)
    have hres : resolvePlatformsE sqrts flatLevel
        (integrate sp (Ball.mk 500 byy 0 bvy false) SIM_DT)
        (ballRect (integrate sp (Ball.mk 500 byy 0 bvy false) SIM_DT)) 0
        = .ok ⟨500, 528, 0,
            min (-((bvy + 20/3) * (1 - sp/375000)/4)) 0, true⟩ := by
      rw [hint]
      simp only [flatLevel, resolvePlatformsE]
      rw [if_pos hcol, hresolve]
    have hmin : min (-((bvy + 20/3) * (1 - sp/375000)/4)) (0:ℚ)
        = -((bvy + 20/3) * (1 - sp/375000)/4) :=
      min_eq_left (by linarith)
    -- the reflected velocity and its bound
    have hVsq : ((bvy + 20/3) * (1 - sp/375000)) * ((bvy + 20/3) * (1 - sp/375000))
        ≤ 5400 := by linarith [hEn, hvsq, hVle]
    -- evaluate the rest of the pipeline
    set vy4 : ℚ := if |(-((bvy + 20/3) * (1 - sp/375000)/4))| < 10 then 0
      else -((bvy + 20/3) * (1 - sp/375000)/4) with hvy4
    have hvy4le : vy4 ≤ 0 := by
      rw [hvy4]
      split
      · exact le_refl 0
      · linarith
    have hvy4sq : vy4 * vy4 ≤ 400 := by
      rw [hvy4]
      split
      · norm_num
      · linarith [hVsq]
    have hbp : boundsPhase ⟨500, 528, 0,
        min (-((bvy + 20/3) * (1 - sp/375000)/4)) 0, true⟩
        = ⟨500, 528, 0, min (-((bvy + 20/3) * (1 - sp/375000)/4)) 0, true⟩ :=
      boundsPhase_id _ (by rw [BALL_R]; norm_num)
        (by rw [BALL_R, Wconst]; norm_num) (by rw [BALL_R]; norm_num)
    have hfr : frictionPhase keep ⟨500, 528, 0,
        min (-((bvy + 20/3) * (1 - sp/375000)/4)) 0, true⟩
        = ⟨500, 528, 0, vy4, true⟩ := by
      simp only [frictionPhase, Ball.speedSq]
      rw [if_pos ⟨by trivial, by
        rw [hmin]
        nlinarith [mul_pos hVpos hVpos]⟩]
      simp only [Ball.mk.injEq]
      refine ⟨trivial, trivial, by ring, ?_, trivial⟩
      rw [hmin, hvy4]
    have hsinkf : ¬ sinkCond (-1000, -1000) HOLE_R (-1000, -1000).2
        ⟨500, 528, 0, vy4, true⟩ := by
      rintro ⟨h1, -, -⟩
      rw [HOLE_R] at h1
      dsimp only at h1
      norm_num at h1
    have hsettledf : Ball.speedSq ⟨500, 528, 0, vy4, true⟩
        < STOP_SPEED * STOP_SPEED := by
      rw [Ball.speedSq, STOP_SPEED]
      dsimp only
      linarith [hvy4sq]
    have hfallf : ¬ ((⟨500, 528, 0, min (-((bvy + 20/3) * (1 - sp/375000)/4)) 0, true⟩
        : Ball).y > (Hconst : ℚ) + 200) := by
      rw [Hconst]
      norm_num
    refine ⟨⟨500, 528, 0, vy4, true⟩, 1, ?_, ?_⟩
    · simp only [simStepE]
      simp [hres, hbp, hfr, hsinkf, hsettledf, hfallf, hc0, SETTLED_FRAMES_NEEDED]
    · refine ⟨⟨rfl, rfl, by norm_num, ?_⟩, by norm_num, fun _ => ⟨rfl, hvy4le⟩⟩
      dsimp only
      linarith [hvy4sq]
  · -- airborne: the broad phase misses, nothing else fires
    have hy1lo : 527 ≤ byy + (bvy + 20/3) * (1 - sp/375000) * SIM_DT := by
      rw [hsd]; linarith [hVge]
    have hy1hi : byy + (bvy + 20/3) * (1 - sp/375000) * SIM_DT < 529 := not_le.mp hcon
    have hnc : ¬ colliderect ⟨0, 540, 1000, 60⟩
        (ballRect ⟨500, byy + (bvy + 20/3) * (1 - sp/375000) * SIM_DT, 0,
          (bvy + 20/3) * (1 - sp/375000), false⟩) := fun h =>
      hcon ((c8_collide_iff _ rfl (by dsimp only; exact hy1lo)
        (by dsimp only; linarith)).mp h)
    have hres : resolvePlatformsE sqrts flatLevel
        (integrate sp (Ball.mk 500 byy 0 bvy false) SIM_DT)
        (ballRect (integrate sp (Ball.mk 500 byy 0 bvy false) SIM_DT)) 0
        = .ok ⟨500, byy + (bvy + 20/3) * (1 - sp/375000) * SIM_DT, 0,
            (bvy + 20/3) * (1 - sp/375000), false⟩ := by
      rw [hint]
      simp only [flatLevel, resolvePlatformsE]
      rw [if_neg hnc]
    obtain ⟨-, hstep⟩ := freeStep_agree sp sqrts keep flatLevel (0, 0) (-1000, -1000)
      ⟨Ball.mk 500 byy 0 bvy bog, 0, false, false, 0, false⟩ c
      ⟨500, byy + (bvy + 20/3) * (1 - sp/375000) * SIM_DT, 0,
        (bvy + 20/3) * (1 - sp/375000), false⟩
      rfl rfl hres rfl
      (by dsimp only; rw [BALL_R]; norm_num)
      (by dsimp only; rw [BALL_R, Wconst]; norm_num)
      (by dsimp only; rw [BALL_R]; linarith)
      (by dsimp only; rw [Hconst]; push_cast; linarith)
      (by
        rintro ⟨h1, -, -⟩
        rw [HOLE_R] at h1
        dsimp only at h1
        nlinarith [h1, mul_self_nonneg
          (byy + (bvy + 20/3) * (1 - sp/375000) * SIM_DT + 1000)])
    refine ⟨_, 0, hstep, ⟨⟨rfl, rfl, by dsimp only; exact hy1hi, ?_⟩,
      by norm_num, fun h => absurd h (by norm_num)⟩⟩
    dsimp only
    rw [hsd]
    linarith [hEn, hE]

/-- C8: the claim's scenario says the Fast-Forward Oracle, given a ball
already at rest on the ground with zero velocity, returns immediately — the
first settled check passing — without consuming the full step cap.  The code
refutes this: from any state in the `C8InvC` envelope (which contains the
ball resting at (500, 528) on the flat ground with zero velocity and counter
0), every oracle iteration returns `.cont` — the settled early-exit never
fires, because the int-truncated broad phase never reports ground contact on
two consecutive iterations, so the settled counter never exceeds 1 and never
reaches `SETTLED_FRAMES_NEEDED` — and hence the loop consumes its entire fuel
`n` and falls out returning `(ball, False)`. -/
theorem c8_flat_ground_never_settles (sps : ℕ → ℚ) (sqrtss : ℕ → ℕ → ℚ → ℚ)
    (keep : ℚ) (n k : ℕ) (b : Ball) (c : ℕ)
    (hInv : C8InvC b c)
    (hcerts : C8Certs sps sqrtss keep n k b c) :
    AllCont sps sqrtss keep flatLevel [] (-1000, -1000) HOLE_R STOP_SPEED n k b c
    ∧ simRunE sps sqrtss keep flatLevel [] (-1000, -1000) HOLE_R STOP_SPEED n k b c
      = .ok ((simIter sps sqrtss keep flatLevel [] (-1000, -1000) HOLE_R STOP_SPEED
          n k (b, c)).1, false) := by
  revert hInv hcerts
  induction n generalizing k b c with
  | zero =>
    intro hInv hcerts
    exact ⟨trivial, rfl⟩
  | succ n ih =>
    intro hInv hcerts
    obtain ⟨hsp, hsq, hrest⟩ := hcerts
    obtain ⟨b2, c2, hstep, hInv2⟩ := c8_step (sps k) keep (sqrtss k) b c hInv hsp hsq
    have hcs : simContStep (sps k) (sqrtss k) keep flatLevel [] (-1000, -1000)
        HOLE_R STOP_SPEED b c = (b2, c2) := by
      simp only [simContStep, hstep]
    rw [hcs] at hrest
    have hih := ih (k + 1) b2 c2 hInv2 hrest
    constructor
    · simp only [AllCont]
      rw [hcs]
      exact ⟨hstep, hih.1⟩
    · have hiter : simIter sps sqrtss keep flatLevel [] (-1000, -1000) HOLE_R
          STOP_SPEED (n + 1) k (b, c)
          = simIter sps sqrtss keep flatLevel [] (-1000, -1000) HOLE_R STOP_SPEED
            n (k + 1) (b2, c2) := by
        simp only [simIter]
        rw [hcs]
      rw [simRunE_cont_step sps sqrtss keep flatLevel [] (-1000, -1000) HOLE_R
        STOP_SPEED n k b b2 c c2 hstep, hiter]
      exact hih.2

/-- Witness for C8: the concrete at-rest ball of the claim's scenario —
(500, 528) on the flat ground, zero velocity, counter 0 — satisfies the
invariant and the square-root certificates, and the first oracle iteration
already continues the loop instead of settling. -/
theorem c8_witness :
    C8InvC ⟨500, 528, 0, 0, false⟩ 0
    ∧ C8Certs constSps c8sqrtss (1/2) 1 0 ⟨500, 528, 0, 0, false⟩ 0
    ∧ (AllCont constSps c8sqrtss (1/2) flatLevel [] (-1000, -1000) HOLE_R STOP_SPEED
          1 0 ⟨500, 528, 0, 0, false⟩ 0
       ∧ simRunE constSps c8sqrtss (1/2) flatLevel [] (-1000, -1000) HOLE_R STOP_SPEED
          1 0 ⟨500, 528, 0, 0, false⟩ 0
         = .ok ((simIter constSps c8sqrtss (1/2) flatLevel [] (-1000, -1000) HOLE_R
            STOP_SPEED 1 0 (⟨500, 528, 0, 0, false⟩, 0)).1, false)) := by
  have hInv : C8InvC ⟨500, 528, 0, 0, false⟩ 0 := by
    refine ⟨⟨rfl, rfl, by norm_num, by norm_num⟩, by norm_num,
      fun h => absurd h (by norm_num)⟩
  have hcerts : C8Certs constSps c8sqrtss (1/2) 1 0 ⟨500, 528, 0, 0, false⟩ 0 := by
    refine ⟨⟨by norm_num [constSps], ?_⟩, ?_, trivial⟩
    · norm_num [constSps, GRAVITY, SIM_DT]
    · norm_num [c8sqrtss, constSps, integrate, GRAVITY, AIR_DRAG, SIM_DT]
  exact ⟨hInv, hcerts,
    c8_flat_ground_never_settles constSps c8sqrtss (1/2) 1 0
      ⟨500, 528, 0, 0, false⟩ 0 hInv hcerts⟩

end MiniGolf

